import Mathlib

/-!
# matrix-appservice-go: the interactive registration generator

A shallow embedding of `generator.go` (`readString` and `GenerateRegistration`)
and proofs about it.

Modelling conventions.

* A Go `string` is a `List Char`.  The program only splits at the line feed,
  trims a suffix, concatenates and compares strings, and these operations act
  the same on the UTF-8 bytes and on the characters of a valid UTF-8 text.
* Standard input is a `Reader`: the bytes not yet read, and the error that the
  stream reports once they run out (`io.EOF` for a closed stream).
* A run of `GenerateRegistration` is its exit state together with the list, in
  program order, of the observable things it did: console output, calls of
  `readString`, and calls into the filesystem and into the registration and
  config model.
* Functions of the Go standard library and of the rest of the package that
  `generator.go` only calls are the fields of a `Lib` record, so every theorem
  that quantifies over `lib` holds for whatever those functions do.
-/

namespace Appservice

/-- A Go string. -/
abbrev Str := List Char

/-- A non-nil Go `error`, identified with its message. -/
abbrev Err := Str

instance : Coe String Str := ⟨String.toList⟩

deriving instance DecidableEq for Except

/-! ## Standard input -/

/-- The `bufio.Reader` wrapped around standard input: `buf` is what has not been
read yet, `err` is the error the stream returns when `buf` is used up. -/
structure Reader where
  buf : Str
  err : Err
deriving DecidableEq, Repr

/-- Cut `s` after the first occurrence of `delim`: the text up to and including
`delim`, and what follows it.  `none` when `delim` does not occur. -/
def splitDelim (delim : Char) : Str → Option (Str × Str)
  | [] => none
  | c :: cs =>
    if c = delim then some ([c], cs)
    else
      match splitDelim delim cs with
      | none => none
      | some (line, rest) => some (c :: line, rest)

/-- Go `(*bufio.Reader).ReadString(delim)`: reads until the first occurrence of
`delim` and returns the text up to and including it; if the stream ends or
fails before `delim` is found, returns what was read together with the error. -/
def Reader.ReadString (reader : Reader) (delim : Char) : (Str × Option Err) × Reader :=
  match splitDelim delim reader.buf with
  | some (line, rest) => ((line, none), { reader with buf := rest })
  | none => ((reader.buf, some reader.err), { reader with buf := [] })

/-- Go `strings.TrimSuffix(s, suffix)`. -/
def TrimSuffix (s suffix : Str) : Str :=
  if suffix.isSuffixOf s then s.take (s.length - suffix.length) else s

/-! ## The documents -/

/-- A compiled `*regexp.Regexp`, identified with the pattern it was compiled from. -/
structure Regexp where
  expr : Str
deriving DecidableEq, Repr

/-- One namespace reservation of a registration. -/
structure Namespace where
  Regex : Str
  Exclusive : Bool
deriving DecidableEq, Repr

/-- The `Namespaces` of a registration. -/
structure Namespaces where
  UserIDs : List Namespace
  RoomAliases : List Namespace
deriving DecidableEq, Repr

/-- The fields of `Registration` that `GenerateRegistration` reads or writes;
`ID` stands for everything `CreateRegistration` fills in from the name. -/
structure Registration where
  ID : Str
  URL : Str
  SenderLocalpart : Str
  RateLimited : Bool
  Namespaces : Namespaces
deriving DecidableEq, Repr

/-- The `Host` section of `Config`; `Port` is a Go `uint16`. -/
structure HostConfig where
  Hostname : Str
  Port : Nat
  TLSCert : Str
  TLSKey : Str
deriving DecidableEq, Repr

/-- The `LogConfig` section of `Config`. -/
structure LogConfig where
  Directory : Str
deriving DecidableEq, Repr

/-- The fields of `Config` that `GenerateRegistration` reads or writes. -/
structure Config where
  Host : HostConfig
  HomeserverURL : Str
  HomeserverDomain : Str
  LogConfig : LogConfig
  RegistrationPath : Str
deriving DecidableEq, Repr

/-- What `generator.go` calls but does not define. -/
structure Lib where
  /-- The function `CreateRegistration(name)` of the package. -/
  CreateRegistration : Str → Registration
  /-- The function `Create()` of the package: a fresh config. -/
  Create : Config
  /-- The method `(*Namespaces).RegisterRoomAliases(regex, exclusive)`. -/
  RegisterRoomAliases : Namespaces → Regexp → Bool → Namespaces
  /-- The method `(*Namespaces).RegisterUserIDs(regex, exclusive)`. -/
  RegisterUserIDs : Namespaces → Regexp → Bool → Namespaces
  /-- The method `(*Registration).YAML()`: the text and the error. -/
  RegistrationYAML : Registration → Str × Option Err
  /-- The method `(*Registration).Save(path)`: the error, if any. -/
  RegistrationSave : Registration → Str → Option Err
  /-- The method `(*Config).YAML()`, used as the text handed to `color.Yellow`. -/
  ConfigYAML : Config → Str
  /-- The method `(*Config).Save(path)`: the error, if any. -/
  ConfigSave : Config → Str → Option Err
  /-- Go `regexp.Compile`. -/
  Compile : Str → Except Err Regexp
  /-- Go `strconv.Atoi`. -/
  Atoi : Str → Except Err Int
  /-- Go `strings.ToLower`. -/
  ToLower : Str → Str

/-! ## Observable events and runs -/

/-- The styles of the `color` package that the generator prints with. -/
inductive Style
  | plain
  | green
  | yellow
  | boldCyan
  | boldGreen
deriving DecidableEq, Repr

/-- One observable step of a run. -/
inductive Event
  /-- Text written to standard output. -/
  | say (style : Style) (text : Str)
  /-- One call `readString(reader, message, defaultValue)`: the prompt is
  printed and `reader.ReadString` returns `data` and `err`. -/
  | ask (message defaultValue data : Str) (err : Option Err)
  /-- The call `os.MkdirAll(path, 0755)`. -/
  | MkdirAll (path : Str)
  /-- The call `registration.Namespaces.RegisterRoomAliases(regex, exclusive)`. -/
  | RegisterRoomAliases (regex : Regexp) (exclusive : Bool)
  /-- The call `registration.Namespaces.RegisterUserIDs(regex, exclusive)`. -/
  | RegisterUserIDs (regex : Regexp) (exclusive : Bool)
  /-- The call `registration.Save(path)`, with the registration as it is then. -/
  | SaveRegistration (registration : Registration) (path : Str)
  /-- The call `config.Save(path)`, with the config as it is then. -/
  | SaveConfig (config : Config) (path : Str)
deriving DecidableEq, Repr

/-- How a run of `GenerateRegistration` ends: it ran to the last line, the
operator declined at a checkpoint, or it returned early after a failure.
`stuck` is the value of the namespace loop when its iteration bound is used
up, which does not happen (`reserveNamespaces_not_stuck`). -/
inductive Exit
  | done
  | cancelled
  | aborted
  | stuck
deriving DecidableEq, Repr

/-- A run: how it ended and what it did, in order. -/
abbrev Run := Exit × List Event

/-- The run `r` preceded by the event `e`. -/
def emit (e : Event) (r : Run) : Run := (r.1, e :: r.2)

/-- Go `fmt.Println(parts...)`: the operands separated by spaces, then a line feed. -/
def Println (parts : List Str) : Event :=
  .say .plain (List.intercalate [' '] parts ++ ['\n'])

/-- Go `fmt.Sprintf("%d", n)` for an `int`. -/
def itoa : Int → Str
  | .ofNat n => Nat.toDigits 10 n
  | .negSucc n => '-' :: Nat.toDigits 10 (n + 1)

/-- What Go prints for an `error` operand: the message, or `<nil>`. -/
def errText : Option Err → Str
  | some e => e
  | none => "<nil>"

/-- The console output of an event.  A call of `readString` prints the message
in green, then the default in brackets when it is not empty, then `> `
(lines 31-35). -/
def Event.printed : Event → List (Style × Str)
  | .say style text => [(style, text)]
  | .ask message defaultValue _ _ =>
    [(Style.green, message ++ ['\n'])]
      ++ (if defaultValue.length > 0 then [(Style.plain, '[' :: defaultValue ++ [']'])] else [])
      ++ [(Style.plain, ['>', ' '])]
  | _ => []

/-! ## `readString` (lines 30-49) -/

/-- The value `readString` computes from the line `val` that `ReadString`
returned without error (lines 40-48). -/
def trimLine (val defaultValue : Str) : Str :=
  let val := TrimSuffix val ['\n']
  if val.length = 0 then defaultValue
  else
    let val := TrimSuffix val ['\r']
    if val.length = 0 then defaultValue
    else val

/-- The function `readString(reader, message, defaultValue)`: the returned string and error,
the reader afterwards, and the event of the call. -/
def readString (reader : Reader) (message defaultValue : Str) :
    (Str × Option Err) × Reader × Event :=
  match reader.ReadString '\n' with
  | ((val, err), reader) =>
    let ev := Event.ask message defaultValue val err
    match err with
    | some e => (([], some e), reader, ev)
    | none => ((trimLine val defaultValue, none), reader, ev)

/-- The idiom `x, err := readString(reader, message, defaultValue)` followed by
`if err != nil { fmt.Println("Failed to read user Input:", err); return }`;
`k` is the rest of the function, given `x` and the reader. -/
def prompt (reader : Reader) (message defaultValue : Str) (k : Str → Reader → Run) : Run :=
  match readString reader message defaultValue with
  | ((val, err), reader, ev) =>
    emit ev <|
      match err with
      | some e => (Exit.aborted, [Println ["Failed to read user Input:", e]])
      | none => k val reader

/-- The constant `yes`. -/
def yes : Str := "yes"

/-- The constant `yesShort`. -/
def yesShort : Str := "y"

/-! ## `GenerateRegistration` (lines 57-224), last lines first -/

/-- Lines 213-223: ask where to save the config and save it. -/
def saveConfig (lib : Lib) (config : Config) (reader : Reader) : Run :=
  prompt reader "Where should the config be saved?" "config.yaml" fun path _ =>
    emit (.SaveConfig config path) <|
      match lib.ConfigSave config path with
      | some err => (Exit.aborted, [Println ["Failed to save config:", err]])
      | none => (Exit.done, [.say .boldGreen "Config saved.\n"])

/-- Lines 199-211: show the config and ask for confirmation. -/
def confirmConfig (lib : Lib) (config : Config) (reader : Reader) : Run :=
  emit (.say .boldCyan "\n======= Config generated =======\n") <|
  emit (.say .yellow (lib.ConfigYAML config ++ ['\n'])) <|
  prompt reader "Does the config look OK [yes/no]?" "yes" fun okString reader =>
    let ok := lib.ToLower okString
    if ok ≠ yesShort ∧ ok ≠ yes then
      (Exit.cancelled, [Println ["Cancelling generation."]])
    else saveConfig lib config reader

/-- Lines 185-197: ask where to save the registration, save it, and record the
path in the config. -/
def saveRegistration (lib : Lib) (registration : Registration) (config : Config)
    (reader : Reader) : Run :=
  prompt reader "Where should the registration be saved?" "registration.yaml" fun path reader =>
    emit (.SaveRegistration registration path) <|
      match lib.RegistrationSave registration path with
      | some err => (Exit.aborted, [Println ["Failed to save registration:", err]])
      | none =>
        emit (.say .boldGreen "Registration saved.\n") <|
          let config := { config with RegistrationPath := path }
          confirmConfig lib config reader

/-- Lines 174-183: ask whether the registration looks fine. -/
def confirmRegistration (lib : Lib) (registration : Registration) (config : Config)
    (reader : Reader) : Run :=
  prompt reader "Does the registration look OK [yes/no]?" "yes" fun okInput reader =>
    let ok := lib.ToLower okInput
    if ok ≠ yesShort ∧ ok ≠ yes then
      (Exit.cancelled, [Println ["Cancelling generation."]])
    else saveRegistration lib registration config reader

/-- Lines 166-172: serialise and show the registration.  `err` is the variable
`err` of the function body, which line 168 tests; `yamlErr` is only printed. -/
def previewRegistration (lib : Lib) (registration : Registration) (config : Config)
    (err : Option Err) (reader : Reader) : Run :=
  emit (.say .boldCyan "\n==== Registration generated ====\n") <|
    match lib.RegistrationYAML registration with
    | (yamlString, yamlErr) =>
      if err.isSome then
        (Exit.aborted, [Println ["Failed to return the registration Config:", errText yamlErr]])
      else
        emit (.say .yellow (yamlString ++ ['\n'])) <|
          confirmRegistration lib registration config reader

/-- Lines 156-161, the registration: what the two conditional calls make of it. -/
def registerNamespaces (lib : Lib) (reserveRooms reserveUsers : Bool)
    (registration : Registration) (roomNamespaceRegex userNamespaceRegex : Regexp) :
    Registration :=
  let registration :=
    if reserveRooms then
      { registration with
        Namespaces := lib.RegisterRoomAliases registration.Namespaces roomNamespaceRegex true }
    else registration
  if reserveUsers then
    { registration with
      Namespaces := lib.RegisterUserIDs registration.Namespaces userNamespaceRegex true }
  else registration

/-- Lines 156-161, the events: the two conditional calls. -/
def registerEvents (reserveRooms reserveUsers : Bool)
    (roomNamespaceRegex userNamespaceRegex : Regexp) : List Event :=
  (if reserveRooms then [.RegisterRoomAliases roomNamespaceRegex true] else [])
    ++ (if reserveUsers then [.RegisterUserIDs userNamespaceRegex true] else [])

/-- Lines 140-163, then the code after the loop: the `for` loop, with a bound on
the number of iterations.  Line 153 prints the loop-local `err`, which is nil
there. -/
def namespaceLoop (lib : Lib) (name : Str) (reserveRooms reserveUsers : Bool)
    (registration : Registration) (config : Config) (err : Option Err) :
    Nat → Reader → Run
  | 0, _ => (Exit.stuck, [])
  | fuel + 1, reader =>
    prompt reader "Enter namespace prefix" ('_' :: name ++ ['_']) fun ns reader =>
      match lib.Compile ('#' :: ns ++ (".+:" : Str) ++ config.HomeserverDomain) with
      | .error e =>
        emit (Println [e]) <|
          namespaceLoop lib name reserveRooms reserveUsers registration config err fuel reader
      | .ok roomNamespaceRegex =>
        match lib.Compile ('@' :: ns ++ (".+:" : Str) ++ config.HomeserverDomain) with
        | .error _ =>
          (Exit.aborted,
            [Println ["Failed to generate regexp for the userNamespace:", errText none]])
        | .ok userNamespaceRegex =>
          let r :=
            previewRegistration lib
              (registerNamespaces lib reserveRooms reserveUsers registration roomNamespaceRegex
                userNamespaceRegex)
              config err reader
          (r.1,
            registerEvents reserveRooms reserveUsers roomNamespaceRegex userNamespaceRegex
              ++ r.2)

/-- Lines 139-164: the namespace loop runs only when a reservation was asked
for.  Every iteration reads at least one byte or returns, so one more iteration
than there are unread bytes is never used up. -/
def reserveNamespaces (lib : Lib) (name : Str) (reserveRooms reserveUsers : Bool)
    (registration : Registration) (config : Config) (err : Option Err)
    (reader : Reader) : Run :=
  if reserveRooms || reserveUsers then
    namespaceLoop lib name reserveRooms reserveUsers registration config err
      (reader.buf.length + 1) reader
  else previewRegistration lib registration config err reader

/-- Lines 132-137: the log directory, which is created at once.  This
`readString` is written out rather than through `prompt` because the `err` it
assigns is the variable that line 168 tests later. -/
def askLogDirectory (lib : Lib) (name : Str) (reserveRooms reserveUsers : Bool)
    (registration : Registration) (config : Config) (reader : Reader) : Run :=
  match readString reader "Enter directory for logs" "./logs" with
  | ((dir, err), reader, ev) =>
    emit ev <|
      let config := { config with LogConfig := { config.LogConfig with Directory := dir } }
      if err.isSome then
        (Exit.aborted, [Println ["Failed to read user Input:", errText err]])
      else
        emit (.MkdirAll config.LogConfig.Directory) <|
          reserveNamespaces lib name reserveRooms reserveUsers registration config err reader

/-- Lines 122-131: homeserver address and homeserver domain. -/
def askHomeserver (lib : Lib) (name : Str) (reserveRooms reserveUsers : Bool)
    (registration : Registration) (config : Config) (reader : Reader) : Run :=
  prompt reader "Enter homeserver address" "http://localhost:8008" fun url reader =>
    let config := { config with HomeserverURL := url }
    prompt reader "Enter homeserver domain" "example.com" fun domain reader =>
      let config := { config with HomeserverDomain := domain }
      askLogDirectory lib name reserveRooms reserveUsers registration config reader

/-- Lines 108-120: the port. -/
def askPort (lib : Lib) (name : Str) (reserveRooms reserveUsers : Bool)
    (registration : Registration) (config : Config) (asProtocol asHostname : Str)
    (reader : Reader) : Run :=
  prompt reader "Enter appservice host port" "29313" fun asInput reader =>
    match lib.Atoi asInput with
    | .error convErr => (Exit.aborted, [Println ["Failed to parse port:", convErr]])
    | .ok asPort =>
      let registration :=
        { registration with URL := asProtocol ++ ("://" : Str) ++ asHostname ++ [':'] ++ itoa asPort }
      let config := { config with Host := { config.Host with Hostname := asHostname } }
      let config := { config with Host := { config.Host with Port := (asPort % 65536).toNat } }
      askHomeserver lib name reserveRooms reserveUsers registration config reader

/-- Lines 103-107: the hostname. -/
def askHostname (lib : Lib) (name : Str) (reserveRooms reserveUsers : Bool)
    (registration : Registration) (config : Config) (asProtocol : Str)
    (reader : Reader) : Run :=
  prompt reader "Enter appservice hostname" "localhost" fun asHostname reader =>
    askPort lib name reserveRooms reserveUsers registration config asProtocol asHostname reader

/-- Lines 78-102: the protocol and, for `https`, the TLS questions. -/
def askProtocol (lib : Lib) (name : Str) (reserveRooms reserveUsers : Bool)
    (registration : Registration) (config : Config) (reader : Reader) : Run :=
  prompt reader "Enter appservice host protocol" "http" fun asProtocol reader =>
    if asProtocol = ("https" : Str) then
      prompt reader "Do you want the appservice to handle SSL [yes/no]?" "yes" fun sslInput reader =>
        let wantSSL := lib.ToLower sslInput
        if wantSSL = yes then
          prompt reader "Enter path to SSL certificate" "appservice.crt" fun cert reader =>
            let config := { config with Host := { config.Host with TLSCert := cert } }
            prompt reader "Enter path to SSL key" "appservice.key" fun key reader =>
              let config := { config with Host := { config.Host with TLSKey := key } }
              askHostname lib name reserveRooms reserveUsers registration config asProtocol reader
        else
          askHostname lib name reserveRooms reserveUsers registration config asProtocol reader
    else
      askHostname lib name reserveRooms reserveUsers registration config asProtocol reader

/-- The function `GenerateRegistration(asName, botName, reserveRooms, reserveUsers)` reading
standard input from `reader` (lines 57-77, then the rest). -/
def GenerateRegistration (lib : Lib) (asName botName : Str) (reserveRooms reserveUsers : Bool)
    (reader : Reader) : Run :=
  emit (.say .boldCyan "Generating appservice config and registration.\n") <|
  prompt reader "Enter name for appservice" asName fun name reader =>
    let registration := lib.CreateRegistration name
    let config := lib.Create
    let registration := { registration with RateLimited := false }
    prompt reader "Enter bot username" botName fun botName reader =>
      let registration := { registration with SenderLocalpart := botName }
      askProtocol lib name reserveRooms reserveUsers registration config reader

/-! ## A concrete library, for running the generator on concrete input -/

/-- The value of a run of decimal digits; `none` when a character is not a digit. -/
def parseDigits : Str → Nat → Option Nat
  | [], acc => some acc
  | c :: cs, acc =>
    if '0' ≤ c ∧ c ≤ '9' then parseDigits cs (acc * 10 + (c.toNat - '0'.toNat)) else none

/-- Go `strconv.Atoi` on a 64-bit platform, from its documentation: an optional
sign followed by one or more decimal digits, and the value must fit an `int`. -/
def stdAtoi (s : Str) : Except Err Int :=
  let invalidErr : Err := ("strconv.Atoi: parsing \"" : Str) ++ s ++ ("\": invalid syntax" : Str)
  let rangeErr : Err := ("strconv.Atoi: parsing \"" : Str) ++ s ++ ("\": value out of range" : Str)
  let (neg, digits) :=
    match s with
    | '-' :: ds => (true, ds)
    | '+' :: ds => (false, ds)
    | ds => (false, ds)
  if digits.length = 0 then .error invalidErr
  else
    match parseDigits digits 0 with
    | none => .error invalidErr
    | some n =>
      let v : Int := if neg then -(n : Int) else (n : Int)
      if -9223372036854775808 ≤ v ∧ v ≤ 9223372036854775807 then .ok v else .error rangeErr

/-- Go `strings.ToLower` on ASCII text: the letters `A` to `Z` are mapped to
`a` to `z`, every other character is kept. -/
def asciiToLower (s : Str) : Str := s.map Char.toLower

/-- A library to run the generator with: the standard-library functions as
above, a pattern compiler that accepts everything except a pattern holding
`(` and no `)`, documents that start empty (and rate-limited), and saves that
succeed. -/
def stdLib : Lib where
  CreateRegistration name :=
    { ID := name, URL := [], SenderLocalpart := [], RateLimited := true,
      Namespaces := { UserIDs := [], RoomAliases := [] } }
  Create :=
    { Host := { Hostname := [], Port := 0, TLSCert := [], TLSKey := [] },
      HomeserverURL := [], HomeserverDomain := [], LogConfig := { Directory := [] },
      RegistrationPath := [] }
  RegisterRoomAliases ns regex exclusive :=
    { ns with RoomAliases := ns.RoomAliases ++ [{ Regex := regex.expr, Exclusive := exclusive }] }
  RegisterUserIDs ns regex exclusive :=
    { ns with UserIDs := ns.UserIDs ++ [{ Regex := regex.expr, Exclusive := exclusive }] }
  RegistrationYAML registration := (("url: " : Str) ++ registration.URL, none)
  RegistrationSave _ _ := none
  ConfigYAML config := ("homeserver: " : Str) ++ config.HomeserverURL
  ConfigSave _ _ := none
  Compile s :=
    if '(' ∈ s ∧ ')' ∉ s then .error ("error parsing regexp: missing closing )" : Str)
    else .ok { expr := s }
  Atoi := stdAtoi
  ToLower := asciiToLower

/-- Standard input holding `text` and then closed. -/
def stdin (text : String) : Reader := { buf := text.toList, err := "EOF" }

/-! ## The reference definition of `readString` -/

/-- Specification of `readString`: the line without one trailing carriage return. -/
def stripCR (L : Str) : Str :=
  if L.getLast? = some '\r' then L.dropLast else L

/-- Specification of `readString`: what a line `L` answers to a prompt whose
default is `d`. -/
def readStringSpec (L d : Str) : Str :=
  if stripCR L = [] then d else stripCR L

/-- The answer a complete line `L` (without its line feed) gives to a prompt
whose default is `d`: what `readString` computes from `L` followed by `\n`. -/
def answer (L d : Str) : Str := trimLine (L ++ ['\n']) d

/-! ## Kinds of events and their place in the program order -/

/-- The kind of an event: what was called, and for a prompt which question. -/
inductive Tag
  | say
  | ask (message : Str)
  | MkdirAll
  | RegisterRoomAliases
  | RegisterUserIDs
  | SaveRegistration
  | SaveConfig
deriving DecidableEq, Repr

/-- The kind of an event. -/
def Event.tag : Event → Tag
  | .say _ _ => .say
  | .ask message _ _ _ => .ask message
  | .MkdirAll _ => .MkdirAll
  | .RegisterRoomAliases _ _ => .RegisterRoomAliases
  | .RegisterUserIDs _ _ => .RegisterUserIDs
  | .SaveRegistration _ _ => .SaveRegistration
  | .SaveConfig _ _ => .SaveConfig

/-- The kinds of the events. -/
def tagsOf (evs : List Event) : List Tag := evs.map Event.tag

/-- The kinds of the `Save` calls of a list of events, in order. -/
def saveTags (evs : List Event) : List Tag :=
  (evs.map Event.tag).filter fun t => t = Tag.SaveRegistration ∨ t = Tag.SaveConfig

/-- The number of namespace prompts among the events. -/
def namespacePrompts (evs : List Event) : Nat :=
  evs.countP fun ev => ev.tag = Tag.ask "Enter namespace prefix"

/-- Every event of the run `r` has its kind in `T`. -/
def Tags (T : List Tag) (r : Run) : Prop := ∀ ev ∈ r.2, ev.tag ∈ T

/-- The kinds of events from the config checkpoint on (lines 199-223). -/
def tagsConfig : List Tag :=
  [.say, .ask "Does the config look OK [yes/no]?", .ask "Where should the config be saved?",
    .SaveConfig]

/-- The kinds of events from the registration preview on (lines 166-223). -/
def tagsRegistration : List Tag :=
  [.ask "Does the registration look OK [yes/no]?",
    .ask "Where should the registration be saved?", .SaveRegistration] ++ tagsConfig

/-- The kinds of events of the namespace loop (lines 139-164), given the flags. -/
def tagsNamespaces (reserveRooms reserveUsers : Bool) : List Tag :=
  (if reserveRooms || reserveUsers then [Tag.ask "Enter namespace prefix"] else [])
    ++ (if reserveRooms then [Tag.RegisterRoomAliases] else [])
    ++ (if reserveUsers then [Tag.RegisterUserIDs] else [])

/-- The kinds of events after the port step (lines 122-223), given the flags. -/
def tagsAfterPort (reserveRooms reserveUsers : Bool) : List Tag :=
  [.ask "Enter homeserver address", .ask "Enter homeserver domain",
    .ask "Enter directory for logs", .MkdirAll]
    ++ tagsNamespaces reserveRooms reserveUsers ++ tagsRegistration

/-- The kinds of events of a whole run, given the flags. -/
def tagsRun (reserveRooms reserveUsers : Bool) : List Tag :=
  [.ask "Enter name for appservice", .ask "Enter bot username",
    .ask "Enter appservice host protocol",
    .ask "Do you want the appservice to handle SSL [yes/no]?",
    .ask "Enter path to SSL certificate", .ask "Enter path to SSL key",
    .ask "Enter appservice hostname", .ask "Enter appservice host port"]
    ++ tagsAfterPort reserveRooms reserveUsers

/-- The place of a kind of event in the program order of `GenerateRegistration`:
the prompts in the order of their lines, and the calls where they stand among
them.  Console output occurs everywhere and has no place of its own. -/
def Tag.phase : Tag → Nat
  | .say => 0
  | .ask message =>
    if message = ("Enter name for appservice" : Str) then 1
    else if message = ("Enter bot username" : Str) then 2
    else if message = ("Enter appservice host protocol" : Str) then 3
    else if message = ("Do you want the appservice to handle SSL [yes/no]?" : Str) then 4
    else if message = ("Enter path to SSL certificate" : Str) then 5
    else if message = ("Enter path to SSL key" : Str) then 6
    else if message = ("Enter appservice hostname" : Str) then 7
    else if message = ("Enter appservice host port" : Str) then 8
    else if message = ("Enter homeserver address" : Str) then 9
    else if message = ("Enter homeserver domain" : Str) then 10
    else if message = ("Enter directory for logs" : Str) then 11
    else if message = ("Enter namespace prefix" : Str) then 13
    else if message = ("Does the registration look OK [yes/no]?" : Str) then 16
    else if message = ("Where should the registration be saved?" : Str) then 17
    else if message = ("Does the config look OK [yes/no]?" : Str) then 19
    else if message = ("Where should the config be saved?" : Str) then 20
    else 100
  | .MkdirAll => 12
  | .RegisterRoomAliases => 14
  | .RegisterUserIDs => 15
  | .SaveRegistration => 18
  | .SaveConfig => 21

/-- The event `a` may come before the event `b` in a run: it has an earlier
place in the program order, or it is a prompt of the namespace loop and `b` has
the same place. -/
def Event.before (a b : Event) : Prop :=
  a.tag.phase < b.tag.phase
    ∨ (a.tag = Tag.ask "Enter namespace prefix" ∧ b.tag.phase = a.tag.phase)

/-- The events of the run `r` other than console output. -/
def calls (r : Run) : List Event := r.2.filter fun ev => ev.tag ≠ Tag.say

/-- The events of the run `r` other than console output come in program order
and none of them has a place before `p`. -/
def InOrder (p : Nat) (r : Run) : Prop :=
  (∀ ev ∈ calls r, p ≤ ev.tag.phase) ∧ (calls r).Pairwise Event.before

/-! ## Properties of runs -/

/-- Every failed read in the run `r` is followed by the diagnostic and by nothing
else, and the run is aborted. -/
def FailFinal (r : Run) : Prop :=
  ∀ pre m d data e post, r.2 = pre ++ Event.ask m d data (some e) :: post →
    r.1 = Exit.aborted ∧ post = [Println ["Failed to read user Input:", e]]

/-- What the run `r` does around its port prompt: no document is saved before
it; if `strconv.Atoi` rejects the answer the run is aborted and only the
diagnostic follows; if it accepts the answer the next event is the prompt for
the homeserver address. -/
def PortStep (lib : Lib) (r : Run) : Prop :=
  ∀ pre d data post,
    r.2 = pre ++ Event.ask "Enter appservice host port" d data none :: post →
      (∀ ev ∈ pre, ev.tag ≠ Tag.SaveRegistration ∧ ev.tag ≠ Tag.SaveConfig)
        ∧ (∀ convErr, lib.Atoi (trimLine data d) = .error convErr →
            r.1 = Exit.aborted ∧ post = [Println ["Failed to parse port:", convErr]])
        ∧ (∀ n, lib.Atoi (trimLine data d) = .ok n →
            ∃ data' err' tail, post
              = Event.ask "Enter homeserver address" "http://localhost:8008" data' err' :: tail)

/-! ## Answers and saved documents -/

/-- The answer given to the first prompt with the given message that was read
without error: the value `readString` returned there. -/
def answerTo (message : Str) : List Event → Option Str
  | [] => none
  | .ask m d data none :: evs =>
    if m = message then some (trimLine data d) else answerTo message evs
  | _ :: evs => answerTo message evs

/-- The `Save` calls among the events, in order. -/
def saves (evs : List Event) : List Event :=
  evs.filter fun ev => ev.tag = Tag.SaveRegistration ∨ ev.tag = Tag.SaveConfig

/-- The events hold exactly two `Save` calls: `registration` at the path
answered for it, and then `config`, with that path as its registration path. -/
def Saved (evs : List Event) (registration : Registration) (config : Config) : Prop :=
  ∃ regPath cfgPath,
    saves evs
        = [.SaveRegistration registration regPath,
            .SaveConfig { config with RegistrationPath := regPath } cfgPath]
      ∧ answerTo "Where should the registration be saved?" evs = some regPath
      ∧ answerTo "Where should the config be saved?" evs = some cfgPath

/-- The events hold the answers to the three prompts after the port, and the
two documents were saved with those answers: the registration is
`registration` up to its namespaces, the config is `config` with the
homeserver address, the homeserver domain and the log directory answered. -/
def SavedAfterPort (evs : List Event) (registration : Registration) (config : Config) : Prop :=
  ∃ ns url domain dir,
    answerTo "Enter homeserver address" evs = some url
      ∧ answerTo "Enter homeserver domain" evs = some domain
      ∧ answerTo "Enter directory for logs" evs = some dir
      ∧ Saved evs { registration with Namespaces := ns }
          { config with
            HomeserverURL := url, HomeserverDomain := domain,
            LogConfig := { config.LogConfig with Directory := dir } }

/-- What a completed run saved, seen from the hostname step: as
`SavedFromAnswers`, for the protocol `asProtocol` and a registration whose bot
name and rate-limit flag are those of `registration`. -/
def SavedFromHostname (lib : Lib) (evs : List Event) (registration : Registration)
    (asProtocol : Str) : Prop :=
  ∃ (reg : Registration) (regPath : Str) (config : Config) (cfgPath : Str)
    (asHostname asInput : Str) (asPort : Int),
    saves evs = [.SaveRegistration reg regPath, .SaveConfig config cfgPath]
      ∧ reg.SenderLocalpart = registration.SenderLocalpart
      ∧ reg.RateLimited = registration.RateLimited
      ∧ answerTo "Enter appservice hostname" evs = some asHostname
      ∧ answerTo "Enter appservice host port" evs = some asInput
      ∧ lib.Atoi asInput = .ok asPort
      ∧ reg.URL = asProtocol ++ ("://" : Str) ++ asHostname ++ [':'] ++ itoa asPort
      ∧ config.Host.Hostname = asHostname
      ∧ config.Host.Port = (asPort % 65536).toNat
      ∧ answerTo "Enter homeserver address" evs = some config.HomeserverURL
      ∧ answerTo "Enter homeserver domain" evs = some config.HomeserverDomain
      ∧ answerTo "Enter directory for logs" evs = some config.LogConfig.Directory
      ∧ answerTo "Where should the registration be saved?" evs = some regPath
      ∧ config.RegistrationPath = regPath
      ∧ answerTo "Where should the config be saved?" evs = some cfgPath

/-- The kinds of events from the hostname step on that the end-to-end property
speaks of. -/
def tagsAnswers : List Tag :=
  [.SaveRegistration, .SaveConfig, .ask "Enter appservice hostname",
    .ask "Enter appservice host port", .ask "Enter homeserver address",
    .ask "Enter homeserver domain", .ask "Enter directory for logs",
    .ask "Where should the registration be saved?", .ask "Where should the config be saved?"]

/-- What a completed run saved, in terms of the answers: the statement of the
end-to-end property, with the port of the config given as `n mod 2^16` for the
integer `n` that `strconv.Atoi` made of the port answer. -/
def SavedFromAnswers (lib : Lib) (evs : List Event) : Prop :=
  ∃ (registration : Registration) (regPath : Str) (config : Config) (cfgPath : Str)
    (asProtocol asHostname asInput : Str) (asPort : Int),
    saves evs = [.SaveRegistration registration regPath, .SaveConfig config cfgPath]
      ∧ answerTo "Enter bot username" evs = some registration.SenderLocalpart
      ∧ answerTo "Enter appservice host protocol" evs = some asProtocol
      ∧ answerTo "Enter appservice hostname" evs = some asHostname
      ∧ answerTo "Enter appservice host port" evs = some asInput
      ∧ lib.Atoi asInput = .ok asPort
      ∧ registration.URL = asProtocol ++ ("://" : Str) ++ asHostname ++ [':'] ++ itoa asPort
      ∧ registration.RateLimited = false
      ∧ config.Host.Hostname = asHostname
      ∧ config.Host.Port = (asPort % 65536).toNat
      ∧ answerTo "Enter homeserver address" evs = some config.HomeserverURL
      ∧ answerTo "Enter homeserver domain" evs = some config.HomeserverDomain
      ∧ answerTo "Enter directory for logs" evs = some config.LogConfig.Directory
      ∧ answerTo "Where should the registration be saved?" evs = some regPath
      ∧ config.RegistrationPath = regPath
      ∧ answerTo "Where should the config be saved?" evs = some cfgPath

/-! ## Namespace reservations -/

/-- The `Register` calls among the events, in order. -/
def registers (evs : List Event) : List Event :=
  evs.filter fun ev => ev.tag = Tag.RegisterRoomAliases ∨ ev.tag = Tag.RegisterUserIDs

/-- The events hold no `Register` call, and every registration they save is
`registration`. -/
def SavesOnly (registration : Registration) (evs : List Event) : Prop :=
  registers evs = []
    ∧ ∀ reg path, Event.SaveRegistration reg path ∈ evs → reg = registration

/-- The reservations of a run whose registration had the namespaces `ns0` at the
namespace step.  For some room-alias pattern `room` and user-id pattern `user`:
the `Register` calls of the run are none at all, or
`RegisterRoomAliases(room, true)` when `reserveRooms` is set followed by
`RegisterUserIDs(user, true)` when `reserveUsers` is set; and every
registration that the run saves follows such calls and has the namespaces that
these calls make of `ns0`. -/
def Reserved (lib : Lib) (reserveRooms reserveUsers : Bool) (ns0 : Namespaces)
    (evs : List Event) : Prop :=
  ∃ room user : Regexp,
    (registers evs = []
      ∨ registers evs
        = (if reserveRooms then [Event.RegisterRoomAliases room true] else [])
          ++ (if reserveUsers then [Event.RegisterUserIDs user true] else []))
    ∧ ∀ reg path, Event.SaveRegistration reg path ∈ evs →
        registers evs
            = (if reserveRooms then [Event.RegisterRoomAliases room true] else [])
              ++ (if reserveUsers then [Event.RegisterUserIDs user true] else [])
          ∧ reg.Namespaces
            = (if reserveUsers then
                lib.RegisterUserIDs
                  (if reserveRooms then lib.RegisterRoomAliases ns0 room true else ns0) user true
              else if reserveRooms then lib.RegisterRoomAliases ns0 room true else ns0)

/-! ## Concrete libraries and runs -/

/-- The registration that `stdLib` creates for the name `myapp`. -/
def registration0 : Registration := stdLib.CreateRegistration "myapp"

/-- A library like `stdLib` whose pattern compiler (unlike `regexp.Compile`)
rejects the patterns that start with `@`. -/
def userPatternFails : Lib :=
  { stdLib with
    Compile := fun s =>
      match s with
      | '@' :: _ => .error ("error parsing regexp" : Str)
      | _ => .ok { expr := s } }

/-- A library like `stdLib` whose `registration.YAML()` fails. -/
def yamlFails : Lib :=
  { stdLib with RegistrationYAML := fun _ => ([], some ("yaml: cannot marshal" : Str)) }

/-- The end-to-end scenario of the specification. -/
def scenario : Run :=
  GenerateRegistration stdLib "appservice" "bot" false false
    (stdin ("myapp\nbotuser\nhttp\nlocalhost\n29313\nhttp://localhost:8008\nexample.com\n"
      ++ "./logs\nyes\nreg.yaml\nyes\ncfg.yaml\n"))

/-- The end-to-end scenario of the specification, with the port 70000. -/
def run70000 : Run :=
  GenerateRegistration stdLib "appservice" "bot" false false
    (stdin ("myapp\nbotuser\nhttp\nlocalhost\n70000\nhttp://localhost:8008\nexample.com\n"
      ++ "./logs\nyes\nreg.yaml\nyes\ncfg.yaml\n"))

/-- The end-to-end scenario with a `registration.YAML()` that fails. -/
def runYamlFails : Run :=
  GenerateRegistration yamlFails "appservice" "bot" false false
    (stdin ("myapp\nbotuser\nhttp\nlocalhost\n29313\nhttp://localhost:8008\nexample.com\n"
      ++ "./logs\nyes\nreg.yaml\nyes\ncfg.yaml\n"))

/-- The end-to-end scenario over `https`, with `y` as the answer to the SSL
question. -/
def runSslY : Run :=
  GenerateRegistration stdLib "appservice" "bot" false false
    (stdin ("myapp\nbotuser\nhttps\ny\nlocalhost\n29313\nhttp://localhost:8008\n"
      ++ "example.com\n./logs\ny\nreg.yaml\ny\ncfg.yaml\n"))

/-! ## Lines and prompts -/

theorem splitDelim_line (delim : Char) (L rest : Str) (hL : delim ∉ L) :
    splitDelim delim (L ++ delim :: rest) = some (L ++ [delim], rest) := by
  induction L with
  | nil => simp [splitDelim]
  | cons c cs ih =>
    have hc : c ≠ delim := fun h => hL (by simp [h])
    have hcs : delim ∉ cs := fun h => hL (by simp [h])
    simp [splitDelim, hc, ih hcs]

theorem splitDelim_none (delim : Char) (s : Str) (hs : delim ∉ s) :
    splitDelim delim s = none := by
  induction s with
  | nil => simp [splitDelim]
  | cons c cs ih =>
    have hc : c ≠ delim := fun h => hs (by simp [h])
    have hcs : delim ∉ cs := fun h => hs (by simp [h])
    simp [splitDelim, hc, ih hcs]

theorem splitDelim_some (delim : Char) (s line rest : Str)
    (h : splitDelim delim s = some (line, rest)) :
    ∃ L, delim ∉ L ∧ line = L ++ [delim] ∧ s = L ++ delim :: rest := by
  induction s generalizing line with
  | nil => simp [splitDelim] at h
  | cons c cs ih =>
    by_cases hc : c = delim
    · simp [splitDelim, hc] at h
      exact ⟨[], by simp, by simp [h.1], by simp [hc, h.2]⟩
    · simp only [splitDelim, hc, if_false] at h
      cases hr : splitDelim delim cs with
      | none => simp [hr] at h
      | some p =>
        obtain ⟨l, r⟩ := p
        simp [hr] at h
        obtain ⟨h1, h2⟩ := h
        subst h2
        obtain ⟨L, hL, hl, hcs⟩ := ih l hr
        refine ⟨c :: L, ?_, ?_, ?_⟩
        · simp [hL]; exact fun h => hc h.symm
        · simp [← h1, hl]
        · simp [hcs]

theorem TrimSuffix_append (s suffix : Str) : TrimSuffix (s ++ suffix) suffix = s := by
  simp [TrimSuffix]

theorem TrimSuffix_cr (L : Str) : TrimSuffix L ['\r'] = stripCR L := by
  unfold TrimSuffix stripCR
  rcases List.eq_nil_or_concat L with h | ⟨l, c, h⟩
  · subst h; simp
  · subst h
    by_cases hc : c = '\r'
    · subst hc; simp
    · simp [hc]
      rintro ⟨t, ht⟩
      have := congrArg List.getLast? ht
      simp at this
      exact hc this.symm

theorem answer_eq_spec (L d : Str) : answer L d = readStringSpec L d := by
  unfold answer trimLine readStringSpec
  simp only [TrimSuffix_append, TrimSuffix_cr]
  by_cases h1 : L = []
  · subst h1; simp [stripCR]
  · by_cases h2 : stripCR L = []
    · simp [h1, h2]
    · simp [h1, h2]

theorem readString_line (message d L rest : Str) (e : Err) (hL : '\n' ∉ L) :
    readString ⟨L ++ '\n' :: rest, e⟩ message d
      = ((answer L d, none), ⟨rest, e⟩, .ask message d (L ++ ['\n']) none) := by
  simp [readString, Reader.ReadString, splitDelim_line _ _ _ hL, answer]

theorem readString_eof (message d buf : Str) (e : Err) (h : '\n' ∉ buf) :
    readString ⟨buf, e⟩ message d = (([], some e), ⟨[], e⟩, .ask message d buf (some e)) := by
  simp [readString, Reader.ReadString, splitDelim_none _ _ h]

theorem prompt_line (message d L rest : Str) (e : Err) (k : Str → Reader → Run)
    (hL : '\n' ∉ L) :
    prompt ⟨L ++ '\n' :: rest, e⟩ message d k
      = emit (.ask message d (L ++ ['\n']) none) (k (answer L d) ⟨rest, e⟩) := by
  simp [prompt, readString_line _ _ _ _ _ hL]

theorem prompt_eof (message d buf : Str) (e : Err) (k : Str → Reader → Run)
    (h : '\n' ∉ buf) :
    prompt ⟨buf, e⟩ message d k
      = (Exit.aborted,
          [.ask message d buf (some e), Println ["Failed to read user Input:", e]]) := by
  simp [prompt, readString_eof _ _ _ _ h, emit]

/-- Standard input either holds a complete line or does not. -/
theorem reader_cases (reader : Reader) :
    (∃ L rest, '\n' ∉ L ∧ reader = ⟨L ++ '\n' :: rest, reader.err⟩)
      ∨ '\n' ∉ reader.buf := by
  by_cases h : '\n' ∈ reader.buf
  · obtain ⟨L, rest, hbuf, hL⟩ := List.eq_append_cons_of_mem h
    exact Or.inl ⟨L, rest, hL, by cases reader; simp_all⟩
  · exact Or.inr h

/-- The two ways a prompt goes: a line is read and the rest of the function
runs on its answer, or the read fails and the function returns. -/
theorem prompt_cases (reader : Reader) (message d : Str) (k : Str → Reader → Run) :
    (∃ L rest, '\n' ∉ L ∧ reader = ⟨L ++ '\n' :: rest, reader.err⟩ ∧
        prompt reader message d k
          = emit (.ask message d (L ++ ['\n']) none) (k (answer L d) ⟨rest, reader.err⟩))
      ∨ ('\n' ∉ reader.buf ∧
        prompt reader message d k
          = (Exit.aborted,
              [.ask message d reader.buf (some reader.err),
                Println ["Failed to read user Input:", reader.err]])) := by
  rcases reader_cases reader with ⟨L, rest, hL, hr⟩ | h
  · refine Or.inl ⟨L, rest, hL, hr, ?_⟩
    conv => lhs; rw [hr]
    exact prompt_line _ _ _ _ _ _ hL
  · exact Or.inr ⟨h, by cases reader; exact prompt_eof _ _ _ _ _ h⟩

/-! ## A failed read ends the run -/

theorem FailFinal_emit {ev : Event} {r : Run} (hev : ∀ m d data e, ev ≠ .ask m d data (some e))
    (hr : FailFinal r) : FailFinal (emit ev r) := by
  intro pre m d data e post h
  cases pre with
  | nil => simp [Appservice.emit] at h; exact absurd h.1 (hev m d data e)
  | cons x pre =>
    simp [Appservice.emit] at h
    exact hr pre m d data e post h.2

theorem FailFinal_append {l : List Event} {r : Run}
    (hl : ∀ ev ∈ l, ∀ m d data e, ev ≠ .ask m d data (some e))
    (hr : FailFinal r) : FailFinal (r.1, l ++ r.2) := by
  induction l with
  | nil => simpa using hr
  | cons x l ih =>
    have := FailFinal_emit (hl x (by simp)) (ih (fun ev h => hl ev (by simp [h])))
    simpa [Appservice.emit] using this

theorem FailFinal_leaf (exit : Exit) (l : List Event)
    (hl : ∀ ev ∈ l, ∀ m d data e, ev ≠ .ask m d data (some e)) : FailFinal (exit, l) := by
  have := FailFinal_append (r := (exit, [])) hl (by intro pre m d data e post h; simp at h)
  simpa using this

theorem FailFinal_prompt (reader : Reader) (message d : Str) (k : Str → Reader → Run)
    (hk : ∀ val rd, FailFinal (k val rd)) : FailFinal (prompt reader message d k) := by
  rcases prompt_cases reader message d k with ⟨L, rest, -, -, h⟩ | ⟨-, h⟩
  · rw [h]
    exact FailFinal_emit (by simp) (hk _ _)
  · rw [h]
    intro pre m' d' data e post hp
    cases pre with
    | nil =>
      simp only [List.nil_append, List.cons.injEq, Event.ask.injEq, Option.some.injEq] at hp
      obtain ⟨⟨-, -, -, rfl⟩, rfl⟩ := hp
      exact ⟨rfl, rfl⟩
    | cons x pre =>
      cases pre with
      | nil => simp [Println] at hp
      | cons y pre => simp at hp

theorem saveConfig_failFinal (lib : Lib) (config : Config) (reader : Reader) :
    FailFinal (saveConfig lib config reader) := by
  unfold saveConfig
  refine FailFinal_prompt _ _ _ _ fun path rd => FailFinal_emit (by simp) ?_
  cases lib.ConfigSave config path <;> exact FailFinal_leaf _ _ (by simp [Println])

theorem confirmConfig_failFinal (lib : Lib) (config : Config) (reader : Reader) :
    FailFinal (confirmConfig lib config reader) := by
  unfold confirmConfig
  refine FailFinal_emit (by simp) (FailFinal_emit (by simp) ?_)
  refine FailFinal_prompt _ _ _ _ fun ok rd => ?_
  dsimp only
  split
  · exact FailFinal_leaf _ _ (by simp [Println])
  · exact saveConfig_failFinal _ _ _

theorem saveRegistration_failFinal (lib : Lib) (registration : Registration) (config : Config)
    (reader : Reader) : FailFinal (saveRegistration lib registration config reader) := by
  unfold saveRegistration
  refine FailFinal_prompt _ _ _ _ fun path rd => FailFinal_emit (by simp) ?_
  cases lib.RegistrationSave registration path
  · exact FailFinal_emit (by simp) (confirmConfig_failFinal _ _ _)
  · exact FailFinal_leaf _ _ (by simp [Println])

theorem confirmRegistration_failFinal (lib : Lib) (registration : Registration)
    (config : Config) (reader : Reader) :
    FailFinal (confirmRegistration lib registration config reader) := by
  unfold confirmRegistration
  refine FailFinal_prompt _ _ _ _ fun ok rd => ?_
  dsimp only
  split
  · exact FailFinal_leaf _ _ (by simp [Println])
  · exact saveRegistration_failFinal _ _ _ _

theorem previewRegistration_failFinal (lib : Lib) (registration : Registration)
    (config : Config) (err : Option Err) (reader : Reader) :
    FailFinal (previewRegistration lib registration config err reader) := by
  unfold previewRegistration
  refine FailFinal_emit (by simp) ?_
  dsimp only
  split
  · exact FailFinal_leaf _ _ (by simp [Println])
  · exact FailFinal_emit (by simp) (confirmRegistration_failFinal _ _ _ _)

theorem namespaceLoop_failFinal (lib : Lib) (name : Str) (reserveRooms reserveUsers : Bool)
    (registration : Registration) (config : Config) (err : Option Err) (fuel : Nat)
    (reader : Reader) :
    FailFinal
      (namespaceLoop lib name reserveRooms reserveUsers registration config err fuel reader) := by
  induction fuel generalizing reader with
  | zero => exact FailFinal_leaf _ _ (by simp)
  | succ fuel ih =>
    unfold namespaceLoop
    refine FailFinal_prompt _ _ _ _ fun ns rd => ?_
    dsimp only
    split
    · exact FailFinal_emit (by simp [Println]) (ih rd)
    · split
      · exact FailFinal_leaf _ _ (by simp [Println])
      · refine FailFinal_append ?_ (previewRegistration_failFinal _ _ _ _ _)
        intro ev hev
        cases reserveRooms <;> cases reserveUsers <;> simp [registerEvents] at hev <;>
          rcases hev with rfl | rfl <;> simp

theorem reserveNamespaces_failFinal (lib : Lib) (name : Str) (reserveRooms reserveUsers : Bool)
    (registration : Registration) (config : Config) (err : Option Err) (reader : Reader) :
    FailFinal
      (reserveNamespaces lib name reserveRooms reserveUsers registration config err reader) := by
  unfold reserveNamespaces
  split
  · exact namespaceLoop_failFinal _ _ _ _ _ _ _ _ _
  · exact previewRegistration_failFinal _ _ _ _ _

/-- The log-directory step is an ordinary prompt, and the `err` it hands on is nil. -/
theorem askLogDirectory_eq (lib : Lib) (name : Str) (reserveRooms reserveUsers : Bool)
    (registration : Registration) (config : Config) (reader : Reader) :
    askLogDirectory lib name reserveRooms reserveUsers registration config reader
      = prompt reader "Enter directory for logs" "./logs" fun dir rd =>
          emit (.MkdirAll dir)
            (reserveNamespaces lib name reserveRooms reserveUsers registration
              { config with LogConfig := { config.LogConfig with Directory := dir } } none rd) := by
  unfold askLogDirectory prompt
  rcases h : readString reader "Enter directory for logs" "./logs" with ⟨⟨dir, err⟩, rd, ev⟩
  cases err <;> simp [errText]

theorem askLogDirectory_failFinal (lib : Lib) (name : Str) (reserveRooms reserveUsers : Bool)
    (registration : Registration) (config : Config) (reader : Reader) :
    FailFinal (askLogDirectory lib name reserveRooms reserveUsers registration config reader) := by
  rw [askLogDirectory_eq]
  exact FailFinal_prompt _ _ _ _ fun dir rd =>
    FailFinal_emit (by simp) (reserveNamespaces_failFinal _ _ _ _ _ _ _ _)

theorem askHomeserver_failFinal (lib : Lib) (name : Str) (reserveRooms reserveUsers : Bool)
    (registration : Registration) (config : Config) (reader : Reader) :
    FailFinal (askHomeserver lib name reserveRooms reserveUsers registration config reader) := by
  unfold askHomeserver
  exact FailFinal_prompt _ _ _ _ fun url rd => FailFinal_prompt _ _ _ _ fun domain rd =>
    askLogDirectory_failFinal _ _ _ _ _ _ _

theorem askPort_failFinal (lib : Lib) (name : Str) (reserveRooms reserveUsers : Bool)
    (registration : Registration) (config : Config) (asProtocol asHostname : Str)
    (reader : Reader) :
    FailFinal
      (askPort lib name reserveRooms reserveUsers registration config asProtocol asHostname
        reader) := by
  unfold askPort
  refine FailFinal_prompt _ _ _ _ fun asInput rd => ?_
  split
  · exact FailFinal_leaf _ _ (by simp [Println])
  · exact askHomeserver_failFinal _ _ _ _ _ _ _

theorem askHostname_failFinal (lib : Lib) (name : Str) (reserveRooms reserveUsers : Bool)
    (registration : Registration) (config : Config) (asProtocol : Str) (reader : Reader) :
    FailFinal
      (askHostname lib name reserveRooms reserveUsers registration config asProtocol reader) := by
  unfold askHostname
  exact FailFinal_prompt _ _ _ _ fun asHostname rd => askPort_failFinal _ _ _ _ _ _ _ _ _

theorem askProtocol_failFinal (lib : Lib) (name : Str) (reserveRooms reserveUsers : Bool)
    (registration : Registration) (config : Config) (reader : Reader) :
    FailFinal (askProtocol lib name reserveRooms reserveUsers registration config reader) := by
  unfold askProtocol
  refine FailFinal_prompt _ _ _ _ fun asProtocol rd => ?_
  split
  · refine FailFinal_prompt _ _ _ _ fun sslInput rd => ?_
    dsimp only
    split
    · exact FailFinal_prompt _ _ _ _ fun cert rd => FailFinal_prompt _ _ _ _ fun key rd =>
        askHostname_failFinal _ _ _ _ _ _ _ _
    · exact askHostname_failFinal _ _ _ _ _ _ _ _
  · exact askHostname_failFinal _ _ _ _ _ _ _ _

theorem GenerateRegistration_failFinal (lib : Lib) (asName botName : Str)
    (reserveRooms reserveUsers : Bool) (reader : Reader) :
    FailFinal (GenerateRegistration lib asName botName reserveRooms reserveUsers reader) := by
  unfold GenerateRegistration
  exact FailFinal_emit (by simp) <| FailFinal_prompt _ _ _ _ fun name rd =>
    FailFinal_prompt _ _ _ _ fun botName rd => askProtocol_failFinal _ _ _ _ _ _ _

/-! ## Which events a part of the run can produce -/

theorem Tags_mono {T T' : List Tag} {r : Run} (h : T ⊆ T') (hr : Tags T r) : Tags T' r :=
  fun ev hev => h (hr ev hev)

theorem Tags_emit {T : List Tag} {ev : Event} {r : Run} (hev : ev.tag ∈ T) (hr : Tags T r) :
    Tags T (emit ev r) := by
  intro x hx
  simp only [Appservice.emit, List.mem_cons] at hx
  rcases hx with rfl | hx
  · exact hev
  · exact hr x hx

theorem Tags_leaf {T : List Tag} (exit : Exit) (l : List Event) (hl : ∀ ev ∈ l, ev.tag ∈ T) :
    Tags T (exit, l) := hl

theorem Tags_append {T : List Tag} {l : List Event} {r : Run} (hl : ∀ ev ∈ l, ev.tag ∈ T)
    (hr : Tags T r) : Tags T (r.1, l ++ r.2) := by
  intro x hx
  simp only [List.mem_append] at hx
  rcases hx with hx | hx
  · exact hl x hx
  · exact hr x hx

theorem Tags_prompt {T : List Tag} (reader : Reader) (message d : Str)
    (k : Str → Reader → Run) (hm : Tag.ask message ∈ T) (hsay : Tag.say ∈ T)
    (hk : ∀ val rd, Tags T (k val rd)) : Tags T (prompt reader message d k) := by
  rcases prompt_cases reader message d k with ⟨L, rest, -, -, h⟩ | ⟨-, h⟩
  · rw [h]
    exact Tags_emit hm (hk _ _)
  · rw [h]
    intro ev hev
    simp only [List.mem_cons, List.mem_singleton, List.not_mem_nil, or_false] at hev
    rcases hev with rfl | rfl
    · exact hm
    · exact hsay

theorem saveConfig_tags (lib : Lib) (config : Config) (reader : Reader) :
    Tags tagsConfig (saveConfig lib config reader) := by
  unfold saveConfig
  refine Tags_prompt _ _ _ _ (by simp [tagsConfig]) (by simp [tagsConfig]) fun path rd =>
    Tags_emit (by simp [Event.tag, tagsConfig]) ?_
  cases lib.ConfigSave config path <;>
    exact Tags_leaf _ _ (by simp [Println, Event.tag, tagsConfig])

theorem confirmConfig_tags (lib : Lib) (config : Config) (reader : Reader) :
    Tags tagsConfig (confirmConfig lib config reader) := by
  unfold confirmConfig
  refine Tags_emit (by simp [Event.tag, tagsConfig]) (Tags_emit (by simp [Event.tag, tagsConfig]) ?_)
  refine Tags_prompt _ _ _ _ (by simp [tagsConfig]) (by simp [tagsConfig]) fun ok rd => ?_
  dsimp only
  split
  · exact Tags_leaf _ _ (by simp [Println, Event.tag, tagsConfig])
  · exact saveConfig_tags _ _ _

theorem saveRegistration_tags (lib : Lib) (registration : Registration) (config : Config)
    (reader : Reader) :
    Tags tagsRegistration (saveRegistration lib registration config reader) := by
  unfold saveRegistration
  refine Tags_prompt _ _ _ _ (by simp [tagsRegistration]) (by simp [tagsRegistration, tagsConfig])
    fun path rd => Tags_emit (by simp [Event.tag, tagsRegistration]) ?_
  cases lib.RegistrationSave registration path
  · exact Tags_emit (by simp [Event.tag, tagsRegistration, tagsConfig])
      (Tags_mono (fun x hx => by simp [tagsRegistration, hx]) (confirmConfig_tags _ _ _))
  · exact Tags_leaf _ _ (by simp [Println, Event.tag, tagsRegistration, tagsConfig])

theorem confirmRegistration_tags (lib : Lib) (registration : Registration) (config : Config)
    (reader : Reader) :
    Tags tagsRegistration (confirmRegistration lib registration config reader) := by
  unfold confirmRegistration
  refine Tags_prompt _ _ _ _ (by simp [tagsRegistration]) (by simp [tagsRegistration, tagsConfig])
    fun ok rd => ?_
  dsimp only
  split
  · exact Tags_leaf _ _ (by simp [Println, Event.tag, tagsRegistration, tagsConfig])
  · exact saveRegistration_tags _ _ _ _

theorem previewRegistration_tags (lib : Lib) (registration : Registration) (config : Config)
    (err : Option Err) (reader : Reader) :
    Tags tagsRegistration (previewRegistration lib registration config err reader) := by
  unfold previewRegistration
  refine Tags_emit (by simp [Event.tag, tagsRegistration, tagsConfig]) ?_
  dsimp only
  split
  · exact Tags_leaf _ _ (by simp [Println, Event.tag, tagsRegistration, tagsConfig])
  · exact Tags_emit (by simp [Event.tag, tagsRegistration, tagsConfig])
      (confirmRegistration_tags _ _ _ _)

theorem namespaceLoop_tags (lib : Lib) (name : Str) (reserveRooms reserveUsers : Bool)
    (registration : Registration) (config : Config) (err : Option Err) (fuel : Nat)
    (reader : Reader) :
    Tags (Tag.ask "Enter namespace prefix" :: tagsNamespaces reserveRooms reserveUsers
        ++ tagsRegistration)
      (namespaceLoop lib name reserveRooms reserveUsers registration config err fuel reader) := by
  induction fuel generalizing reader with
  | zero => exact Tags_leaf _ _ (by simp)
  | succ fuel ih =>
    unfold namespaceLoop
    refine Tags_prompt _ _ _ _ (by simp) (by simp [tagsRegistration, tagsConfig]) fun ns rd => ?_
    dsimp only
    split
    · exact Tags_emit (by simp [Println, Event.tag, tagsRegistration, tagsConfig]) (ih rd)
    · split
      · exact Tags_leaf _ _ (by simp [Println, Event.tag, tagsRegistration, tagsConfig])
      · refine Tags_append ?_ (Tags_mono (by simp) (previewRegistration_tags _ _ _ _ _))
        intro ev hev
        cases reserveRooms <;> cases reserveUsers <;> simp [registerEvents] at hev <;>
          rcases hev with rfl | rfl <;> simp [Event.tag, tagsNamespaces]

theorem reserveNamespaces_tags (lib : Lib) (name : Str) (reserveRooms reserveUsers : Bool)
    (registration : Registration) (config : Config) (err : Option Err) (reader : Reader) :
    Tags (tagsNamespaces reserveRooms reserveUsers ++ tagsRegistration)
      (reserveNamespaces lib name reserveRooms reserveUsers registration config err reader) := by
  unfold reserveNamespaces
  split
  · rename_i h
    refine Tags_mono ?_ (namespaceLoop_tags _ _ _ _ _ _ _ _ _)
    simp [tagsNamespaces, h]
  · exact Tags_mono (by simp) (previewRegistration_tags _ _ _ _ _)

theorem askLogDirectory_tags (lib : Lib) (name : Str) (reserveRooms reserveUsers : Bool)
    (registration : Registration) (config : Config) (reader : Reader) :
    Tags (tagsAfterPort reserveRooms reserveUsers)
      (askLogDirectory lib name reserveRooms reserveUsers registration config reader) := by
  rw [askLogDirectory_eq]
  refine Tags_prompt _ _ _ _ (by simp [tagsAfterPort])
    (by simp [tagsAfterPort, tagsRegistration, tagsConfig]) fun dir rd =>
    Tags_emit (by simp [Event.tag, tagsAfterPort])
      (Tags_mono (fun x hx => by
        simp only [tagsAfterPort, List.mem_append, List.mem_cons] at hx ⊢; tauto)
        (reserveNamespaces_tags _ _ _ _ _ _ _ _))

theorem askHomeserver_tags (lib : Lib) (name : Str) (reserveRooms reserveUsers : Bool)
    (registration : Registration) (config : Config) (reader : Reader) :
    Tags (tagsAfterPort reserveRooms reserveUsers)
      (askHomeserver lib name reserveRooms reserveUsers registration config reader) := by
  unfold askHomeserver
  have hsay : Tag.say ∈ tagsAfterPort reserveRooms reserveUsers := by
    simp [tagsAfterPort, tagsRegistration, tagsConfig]
  exact Tags_prompt _ _ _ _ (by simp [tagsAfterPort]) hsay fun url rd =>
    Tags_prompt _ _ _ _ (by simp [tagsAfterPort]) hsay fun domain rd =>
      askLogDirectory_tags _ _ _ _ _ _ _

theorem askPort_tags (lib : Lib) (name : Str) (reserveRooms reserveUsers : Bool)
    (registration : Registration) (config : Config) (asProtocol asHostname : Str)
    (reader : Reader) :
    Tags (tagsRun reserveRooms reserveUsers)
      (askPort lib name reserveRooms reserveUsers registration config asProtocol asHostname
        reader) := by
  unfold askPort
  have hsay : Tag.say ∈ tagsRun reserveRooms reserveUsers := by
    simp [tagsRun, tagsAfterPort, tagsRegistration, tagsConfig]
  refine Tags_prompt _ _ _ _ (by simp [tagsRun]) hsay fun asInput rd => ?_
  split
  · exact Tags_leaf _ _ (by simpa [Println, Event.tag] using hsay)
  · exact Tags_mono (fun x hx => by simp [tagsRun, hx]) (askHomeserver_tags _ _ _ _ _ _ _)

theorem askHostname_tags (lib : Lib) (name : Str) (reserveRooms reserveUsers : Bool)
    (registration : Registration) (config : Config) (asProtocol : Str) (reader : Reader) :
    Tags (tagsRun reserveRooms reserveUsers)
      (askHostname lib name reserveRooms reserveUsers registration config asProtocol reader) := by
  unfold askHostname
  have hsay : Tag.say ∈ tagsRun reserveRooms reserveUsers := by
    simp [tagsRun, tagsAfterPort, tagsRegistration, tagsConfig]
  exact Tags_prompt _ _ _ _ (by simp [tagsRun]) hsay fun asHostname rd =>
    askPort_tags _ _ _ _ _ _ _ _ _

theorem askProtocol_tags (lib : Lib) (name : Str) (reserveRooms reserveUsers : Bool)
    (registration : Registration) (config : Config) (reader : Reader) :
    Tags (tagsRun reserveRooms reserveUsers)
      (askProtocol lib name reserveRooms reserveUsers registration config reader) := by
  unfold askProtocol
  have hsay : Tag.say ∈ tagsRun reserveRooms reserveUsers := by
    simp [tagsRun, tagsAfterPort, tagsRegistration, tagsConfig]
  refine Tags_prompt _ _ _ _ (by simp [tagsRun]) hsay fun asProtocol rd => ?_
  split
  · refine Tags_prompt _ _ _ _ (by simp [tagsRun]) hsay fun sslInput rd => ?_
    dsimp only
    split
    · exact Tags_prompt _ _ _ _ (by simp [tagsRun]) hsay fun cert rd =>
        Tags_prompt _ _ _ _ (by simp [tagsRun]) hsay fun key rd =>
          askHostname_tags _ _ _ _ _ _ _ _
    · exact askHostname_tags _ _ _ _ _ _ _ _
  · exact askHostname_tags _ _ _ _ _ _ _ _

theorem GenerateRegistration_tags (lib : Lib) (asName botName : Str)
    (reserveRooms reserveUsers : Bool) (reader : Reader) :
    Tags (tagsRun reserveRooms reserveUsers)
      (GenerateRegistration lib asName botName reserveRooms reserveUsers reader) := by
  unfold GenerateRegistration
  have hsay : Tag.say ∈ tagsRun reserveRooms reserveUsers := by
    simp [tagsRun, tagsAfterPort, tagsRegistration, tagsConfig]
  exact Tags_emit (by simpa [Event.tag] using hsay) <|
    Tags_prompt _ _ _ _ (by simp [tagsRun]) hsay fun name rd =>
      Tags_prompt _ _ _ _ (by simp [tagsRun]) hsay fun botName rd =>
        askProtocol_tags _ _ _ _ _ _ _

/-! ## The namespace loop never uses up its bound -/

theorem namespaceLoop_fuel (lib : Lib) (name : Str) (reserveRooms reserveUsers : Bool)
    (registration : Registration) (config : Config) (err : Option Err) (fuel fuel' : Nat)
    (reader : Reader) (h : reader.buf.length < fuel) (h' : reader.buf.length < fuel') :
    namespaceLoop lib name reserveRooms reserveUsers registration config err fuel reader
      = namespaceLoop lib name reserveRooms reserveUsers registration config err fuel' reader := by
  induction fuel generalizing fuel' reader with
  | zero => omega
  | succ fuel ih =>
    cases fuel' with
    | zero => omega
    | succ fuel' =>
      unfold namespaceLoop
      rcases reader_cases reader with ⟨L, rest, hL, hr⟩ | hr
      · rw [hr, prompt_line _ _ _ _ _ _ hL, prompt_line _ _ _ _ _ _ hL]
        have hlen : (L ++ '\n' :: rest).length = reader.buf.length := by rw [hr]
        simp only [List.length_append, List.length_cons] at hlen
        rw [ih fuel' ⟨rest, reader.err⟩ (by show rest.length < _; omega)
          (by show rest.length < _; omega)]
      · cases reader with
        | mk buf e => rw [prompt_eof _ _ _ _ _ hr, prompt_eof _ _ _ _ _ hr]

/-- One iteration of the loop on a complete line, in terms of `reserveNamespaces`. -/
theorem reserveNamespaces_line (lib : Lib) (name : Str) (reserveRooms reserveUsers : Bool)
    (registration : Registration) (config : Config) (err : Option Err) (L rest : Str) (e : Err)
    (hL : '\n' ∉ L) (hflags : (reserveRooms || reserveUsers) = true) :
    reserveNamespaces lib name reserveRooms reserveUsers registration config err
        ⟨L ++ '\n' :: rest, e⟩
      = emit (.ask "Enter namespace prefix" ('_' :: name ++ ['_']) (L ++ ['\n']) none)
          (match lib.Compile ('#' :: answer L ('_' :: name ++ ['_']) ++ (".+:" : Str)
              ++ config.HomeserverDomain) with
            | .error compErr =>
              emit (Println [compErr])
                (reserveNamespaces lib name reserveRooms reserveUsers registration config err
                  ⟨rest, e⟩)
            | .ok roomNamespaceRegex =>
              match lib.Compile ('@' :: answer L ('_' :: name ++ ['_']) ++ (".+:" : Str)
                  ++ config.HomeserverDomain) with
              | .error _ =>
                (Exit.aborted,
                  [Println ["Failed to generate regexp for the userNamespace:", "<nil>"]])
              | .ok userNamespaceRegex =>
                let r :=
                  previewRegistration lib
                    (registerNamespaces lib reserveRooms reserveUsers registration
                      roomNamespaceRegex userNamespaceRegex)
                    config err ⟨rest, e⟩
                (r.1,
                  registerEvents reserveRooms reserveUsers roomNamespaceRegex userNamespaceRegex
                    ++ r.2)) := by
  have hrest : reserveNamespaces lib name reserveRooms reserveUsers registration config err
      ⟨rest, e⟩
        = namespaceLoop lib name reserveRooms reserveUsers registration config err
            (L ++ '\n' :: rest).length ⟨rest, e⟩ := by
    rw [reserveNamespaces, if_pos hflags]
    apply namespaceLoop_fuel
    · exact Nat.lt_succ_self _
    · show rest.length < (L ++ '\n' :: rest).length
      simp only [List.length_append, List.length_cons]
      omega
  rw [hrest, reserveNamespaces, if_pos hflags, namespaceLoop, prompt_line _ _ _ _ _ _ hL]
  rfl

theorem reserveNamespaces_eof (lib : Lib) (name : Str) (reserveRooms reserveUsers : Bool)
    (registration : Registration) (config : Config) (err : Option Err) (buf : Str) (e : Err)
    (h : '\n' ∉ buf) (hflags : (reserveRooms || reserveUsers) = true) :
    reserveNamespaces lib name reserveRooms reserveUsers registration config err ⟨buf, e⟩
      = (Exit.aborted,
          [.ask "Enter namespace prefix" ('_' :: name ++ ['_']) buf (some e),
            Println ["Failed to read user Input:", e]]) := by
  rw [reserveNamespaces, if_pos hflags, namespaceLoop]
  exact prompt_eof _ _ _ _ _ h

theorem emit_fst (ev : Event) (r : Run) : (emit ev r).1 = r.1 := rfl

theorem emit_snd (ev : Event) (r : Run) : (emit ev r).2 = ev :: r.2 := rfl

theorem prompt_not_stuck (reader : Reader) (message d : Str) (k : Str → Reader → Run)
    (hk : ∀ val rd, (k val rd).1 ≠ Exit.stuck) : (prompt reader message d k).1 ≠ Exit.stuck := by
  rcases prompt_cases reader message d k with ⟨L, rest, -, -, h⟩ | ⟨-, h⟩
  · rw [h, emit_fst]
    exact hk _ _
  · rw [h]
    simp

theorem saveConfig_not_stuck (lib : Lib) (config : Config) (reader : Reader) :
    (saveConfig lib config reader).1 ≠ Exit.stuck := by
  unfold saveConfig
  refine prompt_not_stuck _ _ _ _ fun path rd => ?_
  cases lib.ConfigSave config path <;> simp [emit]

theorem confirmConfig_not_stuck (lib : Lib) (config : Config) (reader : Reader) :
    (confirmConfig lib config reader).1 ≠ Exit.stuck := by
  unfold confirmConfig
  rw [emit_fst, emit_fst]
  refine prompt_not_stuck _ _ _ _ fun ok rd => ?_
  dsimp only
  split
  · simp
  · exact saveConfig_not_stuck _ _ _

theorem saveRegistration_not_stuck (lib : Lib) (registration : Registration) (config : Config)
    (reader : Reader) : (saveRegistration lib registration config reader).1 ≠ Exit.stuck := by
  unfold saveRegistration
  refine prompt_not_stuck _ _ _ _ fun path rd => ?_
  cases lib.RegistrationSave registration path
  · simpa [emit] using confirmConfig_not_stuck _ _ _
  · simp [emit]

theorem confirmRegistration_not_stuck (lib : Lib) (registration : Registration)
    (config : Config) (reader : Reader) :
    (confirmRegistration lib registration config reader).1 ≠ Exit.stuck := by
  unfold confirmRegistration
  refine prompt_not_stuck _ _ _ _ fun ok rd => ?_
  dsimp only
  split
  · simp
  · exact saveRegistration_not_stuck _ _ _ _

theorem previewRegistration_not_stuck (lib : Lib) (registration : Registration)
    (config : Config) (err : Option Err) (reader : Reader) :
    (previewRegistration lib registration config err reader).1 ≠ Exit.stuck := by
  unfold previewRegistration
  rw [emit_fst]
  dsimp only
  split
  · simp
  · rw [emit_fst]
    exact confirmRegistration_not_stuck _ _ _ _

/-- The bound on the iterations of the namespace loop is never used up: the
loop always ends in one of the three exits of the Go function. -/
theorem reserveNamespaces_not_stuck (lib : Lib) (name : Str) (reserveRooms reserveUsers : Bool)
    (registration : Registration) (config : Config) (err : Option Err) (reader : Reader) :
    (reserveNamespaces lib name reserveRooms reserveUsers registration config err reader).1
      ≠ Exit.stuck := by
  by_cases hflags : (reserveRooms || reserveUsers) = true
  · obtain ⟨buf, e⟩ := reader
    suffices h : ∀ n (buf : Str), buf.length = n →
        (reserveNamespaces lib name reserveRooms reserveUsers registration config err
          ⟨buf, e⟩).1 ≠ Exit.stuck from h _ buf rfl
    intro n
    induction n using Nat.strong_induction_on with
    | _ n ih =>
      intro buf hn
      rcases reader_cases ⟨buf, e⟩ with ⟨L, rest, hL, hr⟩ | hr
      · rw [hr, reserveNamespaces_line _ _ _ _ _ _ _ _ _ _ hL hflags, emit_fst]
        have hlen : rest.length < n := by
          have := congrArg (fun r => r.buf.length) hr
          simp at this
          omega
        split
        · rw [emit_fst]
          exact ih _ hlen rest rfl
        · split
          · simp
          · exact previewRegistration_not_stuck _ _ _ _ _
      · rw [reserveNamespaces_eof _ _ _ _ _ _ _ _ _ hr hflags]
        simp
  · rw [reserveNamespaces, if_neg hflags]
    exact previewRegistration_not_stuck _ _ _ _ _

theorem askPort_not_stuck (lib : Lib) (name : Str) (reserveRooms reserveUsers : Bool)
    (registration : Registration) (config : Config) (asProtocol asHostname : Str)
    (reader : Reader) :
    (askPort lib name reserveRooms reserveUsers registration config asProtocol asHostname
      reader).1 ≠ Exit.stuck := by
  unfold askPort
  refine prompt_not_stuck _ _ _ _ fun asInput rd => ?_
  split
  · simp
  · unfold askHomeserver
    refine prompt_not_stuck _ _ _ _ fun url rd => prompt_not_stuck _ _ _ _ fun domain rd => ?_
    rw [askLogDirectory_eq]
    exact prompt_not_stuck _ _ _ _ fun dir rd => reserveNamespaces_not_stuck _ _ _ _ _ _ _ _

/-- The function `GenerateRegistration` is total: every run ends done, cancelled or aborted. -/
theorem GenerateRegistration_not_stuck (lib : Lib) (asName botName : Str)
    (reserveRooms reserveUsers : Bool) (reader : Reader) :
    (GenerateRegistration lib asName botName reserveRooms reserveUsers reader).1
      ≠ Exit.stuck := by
  unfold GenerateRegistration
  rw [emit_fst]
  refine prompt_not_stuck _ _ _ _ fun name rd => prompt_not_stuck _ _ _ _ fun bot rd => ?_
  unfold askProtocol
  have hhost : ∀ registration config asProtocol rd,
      (askHostname lib name reserveRooms reserveUsers registration config asProtocol rd).1
        ≠ Exit.stuck := by
    intro registration config asProtocol rd
    unfold askHostname
    exact prompt_not_stuck _ _ _ _ fun host rd => askPort_not_stuck _ _ _ _ _ _ _ _ _
  refine prompt_not_stuck _ _ _ _ fun asProtocol rd => ?_
  split
  · refine prompt_not_stuck _ _ _ _ fun sslInput rd => ?_
    dsimp only
    split
    · exact prompt_not_stuck _ _ _ _ fun cert rd => prompt_not_stuck _ _ _ _ fun key rd =>
        hhost _ _ _ _
    · exact hhost _ _ _ _
  · exact hhost _ _ _ _

/-- The run from a checkpoint on proceeds to this prompt. -/
theorem prompt_head (reader : Reader) (message d : Str) (k : Str → Reader → Run) :
    ∃ data err tail, (prompt reader message d k).2 = .ask message d data err :: tail := by
  rcases prompt_cases reader message d k with ⟨L, rest, -, -, h⟩ | ⟨-, h⟩
  · exact ⟨_, _, _, by rw [h]; rfl⟩
  · exact ⟨_, _, _, by rw [h]⟩

/-! ## The port step -/

theorem PortStep_emit {lib : Lib} {ev : Event} {r : Run}
    (hev : ev.tag ≠ .ask "Enter appservice host port")
    (hsave : ev.tag ≠ Tag.SaveRegistration ∧ ev.tag ≠ Tag.SaveConfig)
    (hr : PortStep lib r) : PortStep lib (emit ev r) := by
  intro pre d data post h
  cases pre with
  | nil =>
    simp only [Appservice.emit, List.nil_append, List.cons.injEq] at h
    exact absurd (by rw [h.1]; rfl) hev
  | cons x pre =>
    simp only [Appservice.emit, List.cons_append, List.cons.injEq] at h
    obtain ⟨rfl, h⟩ := h
    obtain ⟨h1, h2, h3⟩ := hr pre d data post h
    refine ⟨?_, h2, h3⟩
    intro y hy
    simp only [List.mem_cons] at hy
    rcases hy with rfl | hy
    · exact hsave
    · exact h1 y hy

theorem PortStep_prompt {lib : Lib} (reader : Reader) (message d : Str)
    (k : Str → Reader → Run) (hm : message ≠ "Enter appservice host port")
    (hk : ∀ val rd, PortStep lib (k val rd)) : PortStep lib (prompt reader message d k) := by
  rcases prompt_cases reader message d k with ⟨L, rest, -, -, h⟩ | ⟨-, h⟩
  · rw [h]
    exact PortStep_emit (by simpa [Event.tag] using hm) (by simp [Event.tag]) (hk _ _)
  · rw [h]
    intro pre d' data post hp
    cases pre with
    | nil => simp at hp
    | cons x pre =>
      cases pre with
      | nil => simp [Println] at hp
      | cons y pre => simp at hp

/-- No event with a kind outside `T` occurs in a run with kinds in `T`. -/
theorem Tags_not_mem {T : List Tag} {r : Run} (hr : Tags T r) {pre post : List Event}
    {ev : Event} (h : r.2 = pre ++ ev :: post) : ev.tag ∈ T :=
  hr ev (by rw [h]; simp)

theorem port_not_mem_tagsAfterPort (reserveRooms reserveUsers : Bool) :
    Tag.ask "Enter appservice host port" ∉ tagsAfterPort reserveRooms reserveUsers := by
  cases reserveRooms <;> cases reserveUsers <;> decide

/-- The port step on a complete line. -/
theorem askPort_line (lib : Lib) (name : Str) (reserveRooms reserveUsers : Bool)
    (registration : Registration) (config : Config) (asProtocol asHostname : Str)
    (L rest : Str) (e : Err) (hL : '\n' ∉ L) :
    askPort lib name reserveRooms reserveUsers registration config asProtocol asHostname
        ⟨L ++ '\n' :: rest, e⟩
      = emit (.ask "Enter appservice host port" "29313" (L ++ ['\n']) none)
          (match lib.Atoi (answer L "29313") with
            | .error convErr => (Exit.aborted, [Println ["Failed to parse port:", convErr]])
            | .ok asPort =>
              askHomeserver lib name reserveRooms reserveUsers
                { registration with
                  URL := asProtocol ++ ("://" : Str) ++ asHostname ++ [':'] ++ itoa asPort }
                { config with
                  Host := { config.Host with
                            Hostname := asHostname, Port := (asPort % 65536).toNat } }
                ⟨rest, e⟩) := by
  rw [askPort, prompt_line _ _ _ _ _ _ hL]

theorem askHomeserver_head (lib : Lib) (name : Str) (reserveRooms reserveUsers : Bool)
    (registration : Registration) (config : Config) (reader : Reader) :
    ∃ data err tail,
      (askHomeserver lib name reserveRooms reserveUsers registration config reader).2
        = Event.ask "Enter homeserver address" "http://localhost:8008" data err :: tail := by
  unfold askHomeserver
  exact prompt_head _ _ _ _

theorem askPort_portStep (lib : Lib) (name : Str) (reserveRooms reserveUsers : Bool)
    (registration : Registration) (config : Config) (asProtocol asHostname : Str)
    (reader : Reader) :
    PortStep lib
      (askPort lib name reserveRooms reserveUsers registration config asProtocol asHostname
        reader) := by
  rcases reader_cases reader with ⟨L, rest, hL, hr⟩ | hr
  · rw [hr, askPort_line _ _ _ _ _ _ _ _ _ _ _ hL]
    intro pre d data post h
    cases pre with
    | nil =>
      simp only [emit, List.nil_append, List.cons.injEq, Event.ask.injEq, true_and,
        and_true] at h
      obtain ⟨⟨rfl, rfl⟩, h⟩ := h
      refine ⟨by simp, fun convErr hc => ?_, fun n hn => ?_⟩
      · change lib.Atoi (answer L "29313") = _ at hc
        rw [hc] at h ⊢
        exact ⟨rfl, h.symm⟩
      · change lib.Atoi (answer L "29313") = _ at hn
        rw [hn] at h
        rw [← h]
        exact askHomeserver_head _ _ _ _ _ _ _
    | cons x pre =>
      exfalso
      simp only [emit, List.cons_append, List.cons.injEq] at h
      obtain ⟨-, h⟩ := h
      split at h
      · cases pre with
        | nil => simp [Println] at h
        | cons y pre => simp at h
      · have := Tags_not_mem (askHomeserver_tags _ _ _ _ _ _ _) h
        exact port_not_mem_tagsAfterPort _ _ this
  · obtain ⟨buf, e⟩ := reader
    rw [askPort, prompt_eof _ _ _ _ _ hr]
    intro pre d data post hp
    cases pre with
    | nil => simp at hp
    | cons x pre =>
      cases pre with
      | nil => simp [Println] at hp
      | cons y pre => simp at hp

theorem GenerateRegistration_portStep (lib : Lib) (asName botName : Str)
    (reserveRooms reserveUsers : Bool) (reader : Reader) :
    PortStep lib (GenerateRegistration lib asName botName reserveRooms reserveUsers reader) := by
  unfold GenerateRegistration
  refine PortStep_emit (by simp [Event.tag]) (by simp [Event.tag]) ?_
  refine PortStep_prompt _ _ _ _ (by simp) fun name rd =>
    PortStep_prompt _ _ _ _ (by simp) fun bot rd => ?_
  unfold askProtocol
  have hhost : ∀ registration config asProtocol rd,
      PortStep lib
        (askHostname lib name reserveRooms reserveUsers registration config asProtocol rd) := by
    intro registration config asProtocol rd
    unfold askHostname
    exact PortStep_prompt _ _ _ _ (by simp) fun host rd => askPort_portStep _ _ _ _ _ _ _ _ _
  refine PortStep_prompt _ _ _ _ (by simp) fun asProtocol rd => ?_
  split
  · refine PortStep_prompt _ _ _ _ (by simp) fun sslInput rd => ?_
    dsimp only
    split
    · exact PortStep_prompt _ _ _ _ (by simp) fun cert rd =>
        PortStep_prompt _ _ _ _ (by simp) fun key rd => hhost _ _ _ _
    · exact hhost _ _ _ _
  · exact hhost _ _ _ _

theorem itoa_eq_toString (n : Int) : itoa n = (toString n).toList := by
  cases n with
  | ofNat m => rfl
  | negSucc m => rfl

/-! ## One step of the namespace loop -/

theorem reserveNamespaces_head (lib : Lib) (name : Str) (reserveRooms reserveUsers : Bool)
    (registration : Registration) (config : Config) (err : Option Err) (reader : Reader)
    (hflags : (reserveRooms || reserveUsers) = true) :
    ∃ data err' tail,
      (reserveNamespaces lib name reserveRooms reserveUsers registration config err reader).2
        = Event.ask "Enter namespace prefix" ('_' :: name ++ ['_']) data err' :: tail := by
  rw [reserveNamespaces, if_pos hflags, namespaceLoop]
  exact prompt_head _ _ _ _

theorem namespacePrompts_eq_zero {T : List Tag} {r : Run} (hr : Tags T r)
    (hT : Tag.ask "Enter namespace prefix" ∉ T) : namespacePrompts r.2 = 0 := by
  unfold namespacePrompts
  rw [List.countP_eq_zero]
  intro ev hev
  simp only [decide_eq_true_eq]
  intro h
  exact hT (h ▸ hr ev hev)

/-! ## What a completed run saved -/

theorem prompt_done (reader : Reader) (message d : Str) (k : Str → Reader → Run)
    (h : (prompt reader message d k).1 = Exit.done) :
    ∃ L rest, '\n' ∉ L
      ∧ (prompt reader message d k).2
          = .ask message d (L ++ ['\n']) none :: (k (answer L d) ⟨rest, reader.err⟩).2
      ∧ (k (answer L d) ⟨rest, reader.err⟩).1 = Exit.done := by
  rcases prompt_cases reader message d k with ⟨L, rest, hL, -, hp⟩ | ⟨-, hp⟩
  · rw [hp] at h ⊢
    exact ⟨L, rest, hL, rfl, h⟩
  · rw [hp] at h
    simp at h

theorem answerTo_cons_ne (message : Str) (ev : Event) (evs : List Event)
    (h : ev.tag ≠ Tag.ask message) : answerTo message (ev :: evs) = answerTo message evs := by
  cases ev with
  | ask m d data err =>
    cases err with
    | none =>
      have : m ≠ message := fun hm => h (by rw [← hm]; rfl)
      simp [answerTo, this]
    | some e => simp [answerTo]
  | _ => simp [answerTo]

theorem answerTo_cons_ask (message d L : Str) (evs : List Event) :
    answerTo message (.ask message d (L ++ ['\n']) none :: evs) = some (answer L d) := by
  simp [answerTo, answer]

theorem saves_cons_ne (ev : Event) (evs : List Event)
    (h : ev.tag ≠ Tag.SaveRegistration ∧ ev.tag ≠ Tag.SaveConfig) :
    saves (ev :: evs) = saves evs := by
  simp [saves, List.filter_cons, h.1, h.2]

theorem saves_cons_saveRegistration (registration : Registration) (path : Str)
    (evs : List Event) :
    saves (.SaveRegistration registration path :: evs)
      = .SaveRegistration registration path :: saves evs := by
  simp [saves, List.filter_cons, Event.tag]

theorem Saved_cons {ev : Event} {evs : List Event} {registration : Registration}
    {config : Config}
    (h : ev.tag ∉ [Tag.SaveRegistration, Tag.SaveConfig,
      Tag.ask "Where should the registration be saved?",
      Tag.ask "Where should the config be saved?"])
    (hs : Saved evs registration config) : Saved (ev :: evs) registration config := by
  obtain ⟨regPath, cfgPath, h1, h2, h3⟩ := hs
  simp only [List.mem_cons, List.mem_singleton, not_or, List.not_mem_nil, or_false] at h
  refine ⟨regPath, cfgPath, ?_, ?_, ?_⟩
  · rw [saves_cons_ne _ _ ⟨h.1, h.2.1⟩, h1]
  · rw [answerTo_cons_ne _ _ _ h.2.2.1, h2]
  · rw [answerTo_cons_ne _ _ _ h.2.2.2, h3]

theorem saveConfig_done (lib : Lib) (config : Config) (reader : Reader)
    (h : (saveConfig lib config reader).1 = Exit.done) :
    ∃ cfgPath, saves (saveConfig lib config reader).2 = [.SaveConfig config cfgPath]
      ∧ answerTo "Where should the config be saved?" (saveConfig lib config reader).2
          = some cfgPath
      ∧ answerTo "Where should the registration be saved?" (saveConfig lib config reader).2
          = none := by
  unfold saveConfig at h ⊢
  obtain ⟨L, rest, hL, he, hd⟩ := prompt_done _ _ _ _ h
  rw [he]
  rw [emit_fst] at hd
  cases hs : lib.ConfigSave config (answer L "config.yaml") with
  | some err =>
    rw [hs] at hd
    exact absurd hd (by simp)
  | none =>
    rw [emit_snd]
    dsimp only
    refine ⟨answer L "config.yaml", ?_, answerTo_cons_ask _ _ _ _, ?_⟩
    · rw [saves_cons_ne _ _ (by simp [Event.tag])]
      simp [saves, Event.tag]
    · rw [answerTo_cons_ne _ _ _ (by simp [Event.tag]),
        answerTo_cons_ne _ _ _ (by simp [Event.tag]),
        answerTo_cons_ne _ _ _ (by simp [Event.tag])]
      rfl

theorem confirmConfig_done (lib : Lib) (config : Config) (reader : Reader)
    (h : (confirmConfig lib config reader).1 = Exit.done) :
    ∃ cfgPath, saves (confirmConfig lib config reader).2 = [.SaveConfig config cfgPath]
      ∧ answerTo "Where should the config be saved?" (confirmConfig lib config reader).2
          = some cfgPath
      ∧ answerTo "Where should the registration be saved?" (confirmConfig lib config reader).2
          = none := by
  unfold confirmConfig at h ⊢
  rw [emit_fst, emit_fst] at h
  obtain ⟨L, rest, hL, he, hd⟩ := prompt_done _ _ _ _ h
  rw [emit_snd, emit_snd, he]
  dsimp only at hd ⊢
  split at hd
  · simp at hd
  · rename_i hc
    rw [if_neg hc]
    obtain ⟨cfgPath, h1, h2, h3⟩ := saveConfig_done _ _ _ hd
    refine ⟨cfgPath, ?_, ?_, ?_⟩
    · rw [saves_cons_ne _ _ (by simp [Event.tag]), saves_cons_ne _ _ (by simp [Event.tag]),
        saves_cons_ne _ _ (by simp [Event.tag]), h1]
    · rw [answerTo_cons_ne _ _ _ (by simp [Event.tag]),
        answerTo_cons_ne _ _ _ (by simp [Event.tag]),
        answerTo_cons_ne _ _ _ (by simp [Event.tag]), h2]
    · rw [answerTo_cons_ne _ _ _ (by simp [Event.tag]),
        answerTo_cons_ne _ _ _ (by simp [Event.tag]),
        answerTo_cons_ne _ _ _ (by simp [Event.tag]), h3]

theorem saveRegistration_done (lib : Lib) (registration : Registration) (config : Config)
    (reader : Reader) (h : (saveRegistration lib registration config reader).1 = Exit.done) :
    Saved (saveRegistration lib registration config reader).2 registration config := by
  unfold saveRegistration at h ⊢
  obtain ⟨L, rest, hL, he, hd⟩ := prompt_done _ _ _ _ h
  rw [he]
  rw [emit_fst] at hd
  cases hs : lib.RegistrationSave registration (answer L "registration.yaml") with
  | some err =>
    rw [hs] at hd
    exact absurd hd (by simp)
  | none =>
    rw [hs, emit_fst] at hd
    obtain ⟨cfgPath, h1, h2, h3⟩ := confirmConfig_done _ _ _ hd
    rw [emit_snd]
    dsimp only
    rw [emit_snd]
    refine ⟨answer L "registration.yaml", cfgPath, ?_, answerTo_cons_ask _ _ _ _, ?_⟩
    · rw [saves_cons_ne _ _ (by simp [Event.tag])]
      rw [saves_cons_saveRegistration, saves_cons_ne _ _ (by simp [Event.tag]), h1]
    · rw [answerTo_cons_ne _ _ _ (by simp [Event.tag]),
        answerTo_cons_ne _ _ _ (by simp [Event.tag]),
        answerTo_cons_ne _ _ _ (by simp [Event.tag]), h2]

theorem confirmRegistration_done (lib : Lib) (registration : Registration) (config : Config)
    (reader : Reader) (h : (confirmRegistration lib registration config reader).1 = Exit.done) :
    Saved (confirmRegistration lib registration config reader).2 registration config := by
  unfold confirmRegistration at h ⊢
  obtain ⟨L, rest, hL, he, hd⟩ := prompt_done _ _ _ _ h
  rw [he]
  dsimp only at hd ⊢
  split at hd
  · simp at hd
  · rename_i hc
    rw [if_neg hc]
    exact Saved_cons (by simp [Event.tag]) (saveRegistration_done _ _ _ _ hd)

theorem previewRegistration_done (lib : Lib) (registration : Registration) (config : Config)
    (err : Option Err) (reader : Reader)
    (h : (previewRegistration lib registration config err reader).1 = Exit.done) :
    Saved (previewRegistration lib registration config err reader).2 registration config := by
  unfold previewRegistration at h ⊢
  rw [emit_fst] at h
  rw [emit_snd]
  dsimp only at h ⊢
  split at h
  · simp at h
  · rename_i hc
    rw [if_neg hc]
    rw [emit_fst] at h
    rw [emit_snd]
    exact Saved_cons (by simp [Event.tag]) <| Saved_cons (by simp [Event.tag])
      (confirmRegistration_done _ _ _ _ h)

/-- The registration after the namespace loop differs from the one before it
in its namespaces only. -/
theorem reserveNamespaces_done (lib : Lib) (name : Str) (reserveRooms reserveUsers : Bool)
    (registration : Registration) (config : Config) (err : Option Err) (reader : Reader)
    (h : (reserveNamespaces lib name reserveRooms reserveUsers registration config err
      reader).1 = Exit.done) :
    ∃ ns, Saved
      (reserveNamespaces lib name reserveRooms reserveUsers registration config err reader).2
      { registration with Namespaces := ns } config := by
  by_cases hflags : (reserveRooms || reserveUsers) = true
  · obtain ⟨buf, e⟩ := reader
    suffices hall : ∀ n (buf : Str), buf.length = n →
        (reserveNamespaces lib name reserveRooms reserveUsers registration config err
          ⟨buf, e⟩).1 = Exit.done →
        ∃ ns, Saved
          (reserveNamespaces lib name reserveRooms reserveUsers registration config err
            ⟨buf, e⟩).2
          { registration with Namespaces := ns } config from hall _ buf rfl h
    intro n
    induction n using Nat.strong_induction_on with
    | _ n ih =>
      intro buf hn hd
      rcases reader_cases ⟨buf, e⟩ with ⟨L, rest, hL, hr⟩ | hr
      · rw [hr, reserveNamespaces_line _ _ _ _ _ _ _ _ _ _ hL hflags] at hd ⊢
        have hlen : rest.length < n := by
          have := congrArg (fun r => r.buf.length) hr
          simp at this
          omega
        rw [emit_fst] at hd
        rw [emit_snd]
        split at hd
        · rw [emit_fst] at hd
          obtain ⟨ns, hs⟩ := ih _ hlen rest rfl hd
          exact ⟨ns, Saved_cons (by simp [Event.tag]) <|
            Saved_cons (by simp [Event.tag, Println]) hs⟩
        · split at hd
          · simp at hd
          · rename_i room _ _ user _
            dsimp only at hd ⊢
            have hs := previewRegistration_done _ _ _ _ _ hd
            refine ⟨(registerNamespaces lib reserveRooms reserveUsers registration room
              user).Namespaces, Saved_cons (by simp [Event.tag]) ?_⟩
            have hreg : registerNamespaces lib reserveRooms reserveUsers registration room user
                = { registration with
                    Namespaces := (registerNamespaces lib reserveRooms reserveUsers registration
                      room user).Namespaces } := by
              cases reserveRooms <;> cases reserveUsers <;> rfl
            rw [← hreg]
            cases reserveRooms <;> cases reserveUsers <;>
              simp only [registerEvents, if_true, if_false, List.nil_append, List.cons_append,
                Bool.false_eq_true] <;>
              exact hs
      · rw [reserveNamespaces_eof _ _ _ _ _ _ _ _ _ hr hflags] at hd
        simp at hd
  · rw [reserveNamespaces, if_neg hflags] at h ⊢
    exact ⟨registration.Namespaces, previewRegistration_done _ _ _ _ _ h⟩

theorem askHomeserver_done (lib : Lib) (name : Str) (reserveRooms reserveUsers : Bool)
    (registration : Registration) (config : Config) (reader : Reader)
    (h : (askHomeserver lib name reserveRooms reserveUsers registration config reader).1
      = Exit.done) :
    ∃ ns url domain dir,
      answerTo "Enter homeserver address"
          (askHomeserver lib name reserveRooms reserveUsers registration config reader).2
        = some url
      ∧ answerTo "Enter homeserver domain"
          (askHomeserver lib name reserveRooms reserveUsers registration config reader).2
        = some domain
      ∧ answerTo "Enter directory for logs"
          (askHomeserver lib name reserveRooms reserveUsers registration config reader).2
        = some dir
      ∧ Saved (askHomeserver lib name reserveRooms reserveUsers registration config reader).2
          { registration with Namespaces := ns }
          { config with
            HomeserverURL := url, HomeserverDomain := domain,
            LogConfig := { config.LogConfig with Directory := dir } } := by
  unfold askHomeserver at h ⊢
  obtain ⟨L1, rest1, -, he1, hd1⟩ := prompt_done _ _ _ _ h
  rw [he1]
  dsimp only at hd1 ⊢
  obtain ⟨L2, rest2, -, he2, hd2⟩ := prompt_done _ _ _ _ hd1
  rw [he2]
  dsimp only at hd2 ⊢
  rw [askLogDirectory_eq] at hd2 ⊢
  obtain ⟨L3, rest3, -, he3, hd3⟩ := prompt_done _ _ _ _ hd2
  rw [he3]
  rw [emit_fst] at hd3
  rw [emit_snd]
  obtain ⟨ns, hs⟩ := reserveNamespaces_done _ _ _ _ _ _ _ _ hd3
  refine ⟨ns, answer L1 "http://localhost:8008", answer L2 "example.com",
    answer L3 "./logs", answerTo_cons_ask _ _ _ _, ?_, ?_, ?_⟩
  · rw [answerTo_cons_ne _ _ _ (by simp [Event.tag])]
    exact answerTo_cons_ask _ _ _ _
  · rw [answerTo_cons_ne _ _ _ (by simp [Event.tag]),
      answerTo_cons_ne _ _ _ (by simp [Event.tag])]
    exact answerTo_cons_ask _ _ _ _
  · exact Saved_cons (by simp [Event.tag]) <| Saved_cons (by simp [Event.tag]) <|
      Saved_cons (by simp [Event.tag]) <| Saved_cons (by simp [Event.tag]) hs

theorem SavedAfterPort_cons {ev : Event} {evs : List Event} {registration : Registration}
    {config : Config}
    (h : ev.tag ∉ [Tag.SaveRegistration, Tag.SaveConfig,
      Tag.ask "Where should the registration be saved?",
      Tag.ask "Where should the config be saved?", Tag.ask "Enter homeserver address",
      Tag.ask "Enter homeserver domain", Tag.ask "Enter directory for logs"])
    (hs : SavedAfterPort evs registration config) :
    SavedAfterPort (ev :: evs) registration config := by
  obtain ⟨ns, url, domain, dir, h1, h2, h3, h4⟩ := hs
  simp only [List.mem_cons, List.mem_singleton, not_or, List.not_mem_nil, or_false] at h
  refine ⟨ns, url, domain, dir, ?_, ?_, ?_, Saved_cons ?_ h4⟩
  · rw [answerTo_cons_ne _ _ _ h.2.2.2.2.1, h1]
  · rw [answerTo_cons_ne _ _ _ h.2.2.2.2.2.1, h2]
  · rw [answerTo_cons_ne _ _ _ h.2.2.2.2.2.2, h3]
  · simp only [List.mem_cons, List.mem_singleton, not_or, List.not_mem_nil, or_false]
    exact ⟨h.1, h.2.1, h.2.2.1, h.2.2.2.1⟩

theorem askPort_done (lib : Lib) (name : Str) (reserveRooms reserveUsers : Bool)
    (registration : Registration) (config : Config) (asProtocol asHostname : Str)
    (reader : Reader)
    (h : (askPort lib name reserveRooms reserveUsers registration config asProtocol asHostname
      reader).1 = Exit.done) :
    ∃ asInput asPort,
      answerTo "Enter appservice host port"
          (askPort lib name reserveRooms reserveUsers registration config asProtocol asHostname
            reader).2 = some asInput
        ∧ lib.Atoi asInput = .ok asPort
        ∧ SavedAfterPort
          (askPort lib name reserveRooms reserveUsers registration config asProtocol asHostname
            reader).2
          { registration with
            URL := asProtocol ++ ("://" : Str) ++ asHostname ++ [':'] ++ itoa asPort }
          { config with
            Host := { config.Host with
                      Hostname := asHostname, Port := (asPort % 65536).toNat } } := by
  unfold askPort at h ⊢
  obtain ⟨L, rest, -, he, hd⟩ := prompt_done _ _ _ _ h
  rw [he]
  cases hn : lib.Atoi (answer L "29313") with
  | error convErr =>
    rw [hn] at hd
    exact absurd hd (by simp)
  | ok asPort =>
    rw [hn] at hd
    dsimp only at hd ⊢
    obtain ⟨ns, url, domain, dir, h1, h2, h3, h4⟩ := askHomeserver_done _ _ _ _ _ _ _ hd
    exact ⟨answer L "29313", asPort, answerTo_cons_ask _ _ _ _, hn,
      SavedAfterPort_cons (by simp [Event.tag]) ⟨ns, url, domain, dir, h1, h2, h3, h4⟩⟩

/-- The saved documents of a run that went through the hostname and port steps. -/
theorem askHostname_done (lib : Lib) (name : Str) (reserveRooms reserveUsers : Bool)
    (registration : Registration) (config : Config) (asProtocol : Str) (reader : Reader)
    (h : (askHostname lib name reserveRooms reserveUsers registration config asProtocol
      reader).1 = Exit.done) :
    ∃ asHostname asInput asPort,
      answerTo "Enter appservice hostname"
          (askHostname lib name reserveRooms reserveUsers registration config asProtocol
            reader).2 = some asHostname
        ∧ answerTo "Enter appservice host port"
          (askHostname lib name reserveRooms reserveUsers registration config asProtocol
            reader).2 = some asInput
        ∧ lib.Atoi asInput = .ok asPort
        ∧ SavedAfterPort
          (askHostname lib name reserveRooms reserveUsers registration config asProtocol
            reader).2
          { registration with
            URL := asProtocol ++ ("://" : Str) ++ asHostname ++ [':'] ++ itoa asPort }
          { config with
            Host := { config.Host with
                      Hostname := asHostname, Port := (asPort % 65536).toNat } } := by
  unfold askHostname at h ⊢
  obtain ⟨L, rest, -, he, hd⟩ := prompt_done _ _ _ _ h
  rw [he]
  obtain ⟨asInput, asPort, h1, h2, h3⟩ := askPort_done _ _ _ _ _ _ _ _ _ hd
  refine ⟨answer L "localhost", asInput, asPort, answerTo_cons_ask _ _ _ _, ?_, h2,
    SavedAfterPort_cons (by simp [Event.tag]) h3⟩
  rw [answerTo_cons_ne _ _ _ (by simp [Event.tag]), h1]

theorem SavedFromHostname_cons {lib : Lib} {ev : Event} {evs : List Event}
    {registration : Registration} {asProtocol : Str} (h : ev.tag ∉ tagsAnswers)
    (hs : SavedFromHostname lib evs registration asProtocol) :
    SavedFromHostname lib (ev :: evs) registration asProtocol := by
  obtain ⟨reg, regPath, config, cfgPath, asHostname, asInput, asPort, h1, h2, h3, h4, h5, h6,
    h7, h8, h9, h10, h11, h12, h13, h14, h15⟩ := hs
  simp only [tagsAnswers, List.mem_cons, List.mem_singleton, not_or, List.not_mem_nil,
    or_false] at h
  obtain ⟨t1, t2, t3, t4, t5, t6, t7, t8, t9⟩ := h
  refine ⟨reg, regPath, config, cfgPath, asHostname, asInput, asPort, ?_, h2, h3, ?_, ?_, h6,
    h7, h8, h9, ?_, ?_, ?_, ?_, h14, ?_⟩
  · rw [saves_cons_ne _ _ ⟨t1, t2⟩, h1]
  · rw [answerTo_cons_ne _ _ _ t3, h4]
  · rw [answerTo_cons_ne _ _ _ t4, h5]
  · rw [answerTo_cons_ne _ _ _ t5, h10]
  · rw [answerTo_cons_ne _ _ _ t6, h11]
  · rw [answerTo_cons_ne _ _ _ t7, h12]
  · rw [answerTo_cons_ne _ _ _ t8, h13]
  · rw [answerTo_cons_ne _ _ _ t9, h15]

theorem askHostname_saved (lib : Lib) (name : Str) (reserveRooms reserveUsers : Bool)
    (registration : Registration) (config : Config) (asProtocol : Str) (reader : Reader)
    (h : (askHostname lib name reserveRooms reserveUsers registration config asProtocol
      reader).1 = Exit.done) :
    SavedFromHostname lib
      (askHostname lib name reserveRooms reserveUsers registration config asProtocol reader).2
      registration asProtocol := by
  obtain ⟨asHostname, asInput, asPort, h1, h2, h3, ns, url, domain, dir, h4, h5, h6, regPath,
    cfgPath, h7, h8, h9⟩ := askHostname_done _ _ _ _ _ _ _ _ h
  exact ⟨_, regPath, _, cfgPath, asHostname, asInput, asPort, h7, rfl, rfl, h1, h2, h3, rfl,
    rfl, rfl, h4, h5, h6, h8, rfl, h9⟩

theorem askProtocol_done (lib : Lib) (name : Str) (reserveRooms reserveUsers : Bool)
    (registration : Registration) (config : Config) (reader : Reader)
    (h : (askProtocol lib name reserveRooms reserveUsers registration config reader).1
      = Exit.done) :
    ∃ asProtocol,
      answerTo "Enter appservice host protocol"
          (askProtocol lib name reserveRooms reserveUsers registration config reader).2
        = some asProtocol
      ∧ SavedFromHostname lib
          (askProtocol lib name reserveRooms reserveUsers registration config reader).2
          registration asProtocol := by
  unfold askProtocol at h ⊢
  obtain ⟨L, rest, -, he, hd⟩ := prompt_done _ _ _ _ h
  rw [he]
  refine ⟨answer L "http", answerTo_cons_ask _ _ _ _,
    SavedFromHostname_cons (by simp [Event.tag, tagsAnswers]) ?_⟩
  dsimp only at hd ⊢
  split at hd
  · rename_i hs
    rw [if_pos hs]
    obtain ⟨L1, rest1, -, he1, hd1⟩ := prompt_done _ _ _ _ hd
    rw [he1]
    refine SavedFromHostname_cons (by simp [Event.tag, tagsAnswers]) ?_
    dsimp only at hd1 ⊢
    split at hd1
    · rename_i hy
      rw [if_pos hy]
      obtain ⟨L2, rest2, -, he2, hd2⟩ := prompt_done _ _ _ _ hd1
      rw [he2]
      refine SavedFromHostname_cons (by simp [Event.tag, tagsAnswers]) ?_
      dsimp only at hd2 ⊢
      obtain ⟨L3, rest3, -, he3, hd3⟩ := prompt_done _ _ _ _ hd2
      rw [he3]
      exact SavedFromHostname_cons (by simp [Event.tag, tagsAnswers])
        (askHostname_saved _ _ _ _ _ _ _ _ hd3)
    · rename_i hy
      rw [if_neg hy]
      exact askHostname_saved _ _ _ _ _ _ _ _ hd1
  · rename_i hs
    rw [if_neg hs]
    exact askHostname_saved _ _ _ _ _ _ _ _ hd

/-- What a completed run saved, in terms of its answers. -/
theorem GenerateRegistration_done (lib : Lib) (asName botName : Str)
    (reserveRooms reserveUsers : Bool) (reader : Reader)
    (h : (GenerateRegistration lib asName botName reserveRooms reserveUsers reader).1
      = Exit.done) :
    SavedFromAnswers lib
      (GenerateRegistration lib asName botName reserveRooms reserveUsers reader).2 := by
  unfold GenerateRegistration at h ⊢
  rw [emit_fst] at h
  rw [emit_snd]
  obtain ⟨L1, rest1, -, he1, hd1⟩ := prompt_done _ _ _ _ h
  rw [he1]
  dsimp only at hd1 ⊢
  obtain ⟨L2, rest2, -, he2, hd2⟩ := prompt_done _ _ _ _ hd1
  rw [he2]
  dsimp only at hd2 ⊢
  obtain ⟨asProtocol, hp, hs⟩ := askProtocol_done _ _ _ _ _ _ _ hd2
  obtain ⟨reg, regPath, config, cfgPath, asHostname, asInput, asPort, h1, h2, h3, h4, h5, h6,
    h7, h8, h9, h10, h11, h12, h13, h14, h15⟩ :=
    @SavedFromHostname_cons lib (Event.ask "Enter name for appservice" asName
      (L1 ++ ['\n']) none) _ _ _ (by simp [Event.tag, tagsAnswers])
      (@SavedFromHostname_cons lib (Event.ask "Enter bot username" botName
        (L2 ++ ['\n']) none) _ _ _ (by simp [Event.tag, tagsAnswers]) hs)
  have hsay : ∀ (m : Str) evs,
      answerTo m (Event.say Style.boldCyan
        ("Generating appservice config and registration.\n" : Str) :: evs) = answerTo m evs :=
    fun m evs => rfl
  refine ⟨reg, regPath, config, cfgPath, asProtocol, asHostname, asInput, asPort, ?_, ?_, ?_,
    ?_, ?_, h6, h7, h3, h8, h9, ?_, ?_, ?_, ?_, h14, ?_⟩
  · rw [saves_cons_ne _ _ (by simp [Event.tag]), h1]
  · rw [hsay, answerTo_cons_ne _ _ _ (by simp [Event.tag]), answerTo_cons_ask, h2]
  · rw [hsay, answerTo_cons_ne _ _ _ (by simp [Event.tag]),
      answerTo_cons_ne _ _ _ (by simp [Event.tag]), hp]
  · rw [hsay, h4]
  · rw [hsay, h5]
  · rw [hsay, h10]
  · rw [hsay, h11]
  · rw [hsay, h12]
  · rw [hsay, h13]
  · rw [hsay, h15]


/-! ## The events of a run come in program order -/

theorem calls_emit_say (style : Style) (text : Str) (r : Run) :
    calls (emit (.say style text) r) = calls r := by
  simp [calls, emit, Event.tag]

theorem calls_emit (ev : Event) (r : Run) (h : ev.tag ≠ Tag.say) :
    calls (emit ev r) = ev :: calls r := by
  simp [calls, emit, h]

theorem InOrder_mono {p q : Nat} {r : Run} (h : p ≤ q) (hr : InOrder q r) : InOrder p r :=
  ⟨fun ev hev => le_trans h (hr.1 ev hev), hr.2⟩

theorem InOrder_say {p : Nat} {r : Run} (style : Style) (text : Str) (hr : InOrder p r) :
    InOrder p (emit (.say style text) r) := by
  unfold InOrder
  rw [calls_emit_say]
  exact hr

theorem InOrder_leaf (p : Nat) (exit : Exit) (l : List Event) (hl : ∀ ev ∈ l, ev.tag = Tag.say) :
    InOrder p (exit, l) := by
  have : calls (exit, l) = [] := by
    simp only [calls, List.filter_eq_nil_iff]
    intro ev hev
    simp [hl ev hev]
  unfold InOrder
  rw [this]
  simp

/-- An event is put in front of a run whose events all have a later place. -/
theorem InOrder_emit {p q : Nat} {ev : Event} {r : Run} (hq : ev.tag.phase = q) (h0 : 0 < q)
    (hp : p ≤ q) (hr : InOrder (q + 1) r) : InOrder p (emit ev r) := by
  have hsay : ev.tag ≠ Tag.say := by
    intro h
    rw [h] at hq
    simp [Tag.phase] at hq
    omega
  unfold InOrder
  rw [calls_emit _ _ hsay]
  refine ⟨?_, List.pairwise_cons.mpr ⟨?_, hr.2⟩⟩
  · intro x hx
    simp only [List.mem_cons] at hx
    rcases hx with rfl | hx
    · omega
    · have := hr.1 x hx
      omega
  · intro x hx
    have := hr.1 x hx
    exact Or.inl (by omega)

/-- A prompt of the namespace loop is put in front of a run that may start with
another one. -/
theorem InOrder_emit_loop {ev : Event} {r : Run}
    (hev : ev.tag = Tag.ask "Enter namespace prefix") (hr : InOrder 13 r) :
    InOrder 13 (emit ev r) := by
  have hsay : ev.tag ≠ Tag.say := by rw [hev]; simp
  have hph : ev.tag.phase = 13 := by rw [hev]; rfl
  unfold InOrder
  rw [calls_emit _ _ hsay]
  refine ⟨?_, List.pairwise_cons.mpr ⟨?_, hr.2⟩⟩
  · intro x hx
    simp only [List.mem_cons] at hx
    rcases hx with rfl | hx
    · omega
    · exact hr.1 x hx
  · intro x hx
    have h13 := hr.1 x hx
    by_cases hx13 : x.tag.phase = 13
    · exact Or.inr ⟨hev, by omega⟩
    · exact Or.inl (by omega)

theorem InOrder_prompt {p q : Nat} (reader : Reader) (message d : Str)
    (k : Str → Reader → Run) (hq : (Tag.ask message).phase = q) (h0 : 0 < q) (hp : p ≤ q)
    (hk : ∀ val rd, InOrder (q + 1) (k val rd)) : InOrder p (prompt reader message d k) := by
  rcases prompt_cases reader message d k with ⟨L, rest, -, -, h⟩ | ⟨-, h⟩
  · rw [h]
    exact InOrder_emit hq h0 hp (hk _ _)
  · rw [h]
    exact InOrder_emit (r := (Exit.aborted, [Println ["Failed to read user Input:", reader.err]]))
      hq h0 hp (InOrder_leaf _ _ _ (by simp [Println, Event.tag]))

theorem InOrder_prompt_loop (reader : Reader) (d : Str) (k : Str → Reader → Run)
    (hk : ∀ val rd, InOrder 13 (k val rd)) :
    InOrder 13 (prompt reader "Enter namespace prefix" d k) := by
  rcases prompt_cases reader "Enter namespace prefix" d k with ⟨L, rest, -, -, h⟩ | ⟨-, h⟩
  · rw [h]
    exact InOrder_emit_loop rfl (hk _ _)
  · rw [h]
    exact InOrder_emit_loop
      (r := (Exit.aborted, [Println ["Failed to read user Input:", reader.err]])) rfl
      (InOrder_leaf _ _ _ (by simp [Println, Event.tag]))

theorem saveConfig_inOrder (lib : Lib) (config : Config) (reader : Reader) :
    InOrder 20 (saveConfig lib config reader) := by
  unfold saveConfig
  refine InOrder_prompt _ _ _ _ rfl (by decide) (le_refl _) fun path rd => ?_
  refine InOrder_emit (q := 21) rfl (by decide) (le_refl _) ?_
  cases lib.ConfigSave config path <;>
    exact InOrder_leaf _ _ _ (by simp [Println, Event.tag])

theorem confirmConfig_inOrder (lib : Lib) (config : Config) (reader : Reader) :
    InOrder 19 (confirmConfig lib config reader) := by
  unfold confirmConfig
  refine InOrder_say _ _ (InOrder_say _ _ ?_)
  refine InOrder_prompt _ _ _ _ rfl (by decide) (le_refl _) fun ok rd => ?_
  dsimp only
  split
  · exact InOrder_leaf _ _ _ (by simp [Println, Event.tag])
  · exact saveConfig_inOrder _ _ _

theorem saveRegistration_inOrder (lib : Lib) (registration : Registration) (config : Config)
    (reader : Reader) : InOrder 17 (saveRegistration lib registration config reader) := by
  unfold saveRegistration
  refine InOrder_prompt _ _ _ _ rfl (by decide) (le_refl _) fun path rd => ?_
  refine InOrder_emit (q := 18) rfl (by decide) (le_refl _) ?_
  cases lib.RegistrationSave registration path
  · exact InOrder_say _ _ (confirmConfig_inOrder _ _ _)
  · exact InOrder_leaf _ _ _ (by simp [Println, Event.tag])

theorem confirmRegistration_inOrder (lib : Lib) (registration : Registration)
    (config : Config) (reader : Reader) :
    InOrder 16 (confirmRegistration lib registration config reader) := by
  unfold confirmRegistration
  refine InOrder_prompt _ _ _ _ rfl (by decide) (le_refl _) fun ok rd => ?_
  dsimp only
  split
  · exact InOrder_leaf _ _ _ (by simp [Println, Event.tag])
  · exact saveRegistration_inOrder _ _ _ _

theorem previewRegistration_inOrder (lib : Lib) (registration : Registration)
    (config : Config) (err : Option Err) (reader : Reader) :
    InOrder 16 (previewRegistration lib registration config err reader) := by
  unfold previewRegistration
  refine InOrder_say _ _ ?_
  dsimp only
  split
  · exact InOrder_leaf _ _ _ (by simp [Println, Event.tag])
  · exact InOrder_say _ _ (confirmRegistration_inOrder _ _ _ _)

theorem registerEvents_inOrder (reserveRooms reserveUsers : Bool) (room user : Regexp)
    (r : Run) (hr : InOrder 16 r) :
    InOrder 13 (r.1, registerEvents reserveRooms reserveUsers room user ++ r.2) := by
  have hr15 : InOrder 15 (emit (.RegisterUserIDs user true) r) :=
    InOrder_emit (q := 15) rfl (by decide) (le_refl _) hr
  cases reserveRooms <;> cases reserveUsers
  · exact InOrder_mono (by decide) hr
  · exact InOrder_mono (by decide) hr15
  · exact @InOrder_emit 13 14 (.RegisterRoomAliases room true) r rfl (by decide)
      (by decide) (InOrder_mono (by decide) hr)
  · exact @InOrder_emit 13 14 (.RegisterRoomAliases room true) _ rfl (by decide)
      (by decide) hr15

theorem namespaceLoop_inOrder (lib : Lib) (name : Str) (reserveRooms reserveUsers : Bool)
    (registration : Registration) (config : Config) (err : Option Err) (fuel : Nat)
    (reader : Reader) :
    InOrder 13
      (namespaceLoop lib name reserveRooms reserveUsers registration config err fuel reader) := by
  induction fuel generalizing reader with
  | zero => exact InOrder_leaf _ _ _ (by simp)
  | succ fuel ih =>
    unfold namespaceLoop
    refine InOrder_prompt_loop _ _ _ fun ns rd => ?_
    dsimp only
    split
    · exact InOrder_say _ _ (ih rd)
    · split
      · exact InOrder_leaf _ _ _ (by simp [Println, Event.tag])
      · exact registerEvents_inOrder _ _ _ _ _ (previewRegistration_inOrder _ _ _ _ _)

theorem reserveNamespaces_inOrder (lib : Lib) (name : Str) (reserveRooms reserveUsers : Bool)
    (registration : Registration) (config : Config) (err : Option Err) (reader : Reader) :
    InOrder 13
      (reserveNamespaces lib name reserveRooms reserveUsers registration config err reader) := by
  unfold reserveNamespaces
  split
  · exact namespaceLoop_inOrder _ _ _ _ _ _ _ _ _
  · exact InOrder_mono (by decide) (previewRegistration_inOrder _ _ _ _ _)

theorem askHomeserver_inOrder (lib : Lib) (name : Str) (reserveRooms reserveUsers : Bool)
    (registration : Registration) (config : Config) (reader : Reader) :
    InOrder 9 (askHomeserver lib name reserveRooms reserveUsers registration config reader) := by
  unfold askHomeserver
  refine InOrder_prompt _ _ _ _ rfl (by decide) (le_refl _) fun url rd =>
    InOrder_prompt _ _ _ _ rfl (by decide) (le_refl _) fun domain rd => ?_
  rw [askLogDirectory_eq]
  refine InOrder_prompt _ _ _ _ rfl (by decide) (le_refl _) fun dir rd => ?_
  exact InOrder_emit (q := 12) rfl (by decide) (le_refl _)
    (reserveNamespaces_inOrder _ _ _ _ _ _ _ _)

theorem askHostname_inOrder (lib : Lib) (name : Str) (reserveRooms reserveUsers : Bool)
    (registration : Registration) (config : Config) (asProtocol : Str) (reader : Reader) :
    InOrder 7
      (askHostname lib name reserveRooms reserveUsers registration config asProtocol reader) := by
  unfold askHostname askPort
  refine InOrder_prompt _ _ _ _ rfl (by decide) (le_refl _) fun asHostname rd =>
    InOrder_prompt _ _ _ _ rfl (by decide) (le_refl _) fun asInput rd => ?_
  split
  · exact InOrder_leaf _ _ _ (by simp [Println, Event.tag])
  · exact askHomeserver_inOrder _ _ _ _ _ _ _

/-- The events of a run of `GenerateRegistration`, console output apart, come in
program order. -/
theorem GenerateRegistration_inOrder (lib : Lib) (asName botName : Str)
    (reserveRooms reserveUsers : Bool) (reader : Reader) :
    InOrder 1 (GenerateRegistration lib asName botName reserveRooms reserveUsers reader) := by
  unfold GenerateRegistration
  refine InOrder_say _ _ ?_
  refine InOrder_prompt _ _ _ _ rfl (by decide) (le_refl _) fun name rd =>
    InOrder_prompt _ _ _ _ rfl (by decide) (le_refl _) fun bot rd => ?_
  unfold askProtocol
  refine InOrder_prompt _ _ _ _ rfl (by decide) (le_refl _) fun asProtocol rd => ?_
  split
  · refine InOrder_prompt _ _ _ _ rfl (by decide) (le_refl _) fun sslInput rd => ?_
    dsimp only
    split
    · exact InOrder_prompt _ _ _ _ rfl (by decide) (le_refl _) fun cert rd =>
        InOrder_prompt _ _ _ _ rfl (by decide) (le_refl _) fun key rd =>
          askHostname_inOrder _ _ _ _ _ _ _ _
    · exact InOrder_mono (by decide) (askHostname_inOrder _ _ _ _ _ _ _ _)
  · exact InOrder_mono (by decide) (askHostname_inOrder _ _ _ _ _ _ _ _)

/-- In a run, whatever precedes an event is console output or may come before
it in program order. -/
theorem before_of_precedes (lib : Lib) (asName botName : Str) (reserveRooms reserveUsers : Bool)
    (reader : Reader) (pre post : List Event) (x : Event)
    (h : (GenerateRegistration lib asName botName reserveRooms reserveUsers reader).2
      = pre ++ x :: post)
    (hx : x.tag ≠ Tag.say) :
    ∀ ev ∈ pre, ev.tag = Tag.say ∨ ev.before x := by
  have hord := (GenerateRegistration_inOrder lib asName botName reserveRooms reserveUsers
    reader).2
  unfold calls at hord
  rw [h, List.filter_append, List.filter_cons] at hord
  simp only [hx, ne_eq, not_false_eq_true, decide_True, if_true] at hord
  intro ev hev
  by_cases hs : ev.tag = Tag.say
  · exact Or.inl hs
  · right
    have h1 := (List.pairwise_append.mp hord).2.2 ev
      (List.mem_filter.mpr ⟨hev, by simpa using hs⟩) x (List.mem_cons_self _ _)
    exact h1

/-- In a run, whatever precedes an event has no later place in program order. -/
theorem phase_le_of_precedes (lib : Lib) (asName botName : Str)
    (reserveRooms reserveUsers : Bool) (reader : Reader) (pre post : List Event) (x : Event)
    (h : (GenerateRegistration lib asName botName reserveRooms reserveUsers reader).2
      = pre ++ x :: post)
    (hx : x.tag ≠ Tag.say) :
    ∀ ev ∈ pre, ev.tag.phase ≤ x.tag.phase := by
  intro ev hev
  rcases before_of_precedes lib asName botName reserveRooms reserveUsers reader pre post x h hx
    ev hev with hs | hlt | ⟨-, heq⟩
  · rw [hs]
    exact Nat.zero_le _
  · exact Nat.le_of_lt hlt
  · exact Nat.le_of_eq heq.symm

/-- In a run, every question other than the namespace prefix is asked at most
once: no earlier prompt carries the same message. -/
theorem asked_once (lib : Lib) (asName botName : Str) (reserveRooms reserveUsers : Bool)
    (reader : Reader) (pre post : List Event) (message d data : Str) (err : Option Err)
    (h : (GenerateRegistration lib asName botName reserveRooms reserveUsers reader).2
      = pre ++ Event.ask message d data err :: post)
    (hm : message ≠ "Enter namespace prefix") :
    ∀ ev ∈ pre, ev.tag ≠ Tag.ask message := by
  intro ev hev ht
  rcases before_of_precedes lib asName botName reserveRooms reserveUsers reader pre post _ h
    (by simp [Event.tag]) ev hev with hs | hlt | ⟨hns, -⟩
  · rw [ht] at hs
    simp at hs
  · rw [ht] at hlt
    exact Nat.lt_irrefl _ hlt
  · rw [ht] at hns
    exact hm (Tag.ask.inj hns)


/-! ## What the namespace step makes of the registration -/

theorem registers_cons_ne (ev : Event) (evs : List Event)
    (h : ev.tag ≠ Tag.RegisterRoomAliases ∧ ev.tag ≠ Tag.RegisterUserIDs) :
    registers (ev :: evs) = registers evs := by
  simp [registers, List.filter_cons, h.1, h.2]

theorem registers_eq_nil {evs : List Event}
    (h : ∀ ev ∈ evs, ev.tag ≠ Tag.RegisterRoomAliases ∧ ev.tag ≠ Tag.RegisterUserIDs) :
    registers evs = [] := by
  simp only [registers, List.filter_eq_nil_iff]
  intro ev hev
  simp [(h ev hev).1, (h ev hev).2]

theorem SavesOnly_cons {registration : Registration} {ev : Event} {evs : List Event}
    (h : ev.tag ≠ Tag.RegisterRoomAliases ∧ ev.tag ≠ Tag.RegisterUserIDs
      ∧ ev.tag ≠ Tag.SaveRegistration)
    (hs : SavesOnly registration evs) : SavesOnly registration (ev :: evs) := by
  refine ⟨by rw [registers_cons_ne _ _ ⟨h.1, h.2.1⟩, hs.1], fun reg path hmem => ?_⟩
  simp only [List.mem_cons] at hmem
  rcases hmem with rfl | hmem
  · exact absurd rfl h.2.2
  · exact hs.2 reg path hmem

theorem SavesOnly_of_tags {T : List Tag} {r : Run} (registration : Registration)
    (hr : Tags T r) (h1 : Tag.RegisterRoomAliases ∉ T) (h2 : Tag.RegisterUserIDs ∉ T)
    (h3 : Tag.SaveRegistration ∉ T) : SavesOnly registration r.2 := by
  refine ⟨registers_eq_nil fun ev hev => ⟨fun h => h1 (h ▸ hr ev hev),
    fun h => h2 (h ▸ hr ev hev)⟩, fun reg path hmem => ?_⟩
  exact absurd (hr _ hmem) h3

theorem SavesOnly_save (registration : Registration) (path : Str) {evs : List Event}
    (hs : ∀ reg : Registration, SavesOnly reg evs) :
    SavesOnly registration (Event.SaveRegistration registration path :: evs) := by
  refine ⟨by rw [registers_cons_ne _ _ (by simp [Event.tag]), (hs registration).1],
    fun reg p hmem => ?_⟩
  simp only [List.mem_cons, Event.SaveRegistration.injEq] at hmem
  rcases hmem with ⟨rfl, -⟩ | hmem
  · rfl
  · exact (hs registration).2 reg p hmem

theorem SavesOnly_prompt (registration : Registration) (reader : Reader) (message d : Str)
    (k : Str → Reader → Run) (hk : ∀ val rd, SavesOnly registration (k val rd).2) :
    SavesOnly registration (prompt reader message d k).2 := by
  rcases prompt_cases reader message d k with ⟨L, rest, -, -, h⟩ | ⟨-, h⟩
  · rw [h]
    exact SavesOnly_cons (by simp [Event.tag]) (hk _ _)
  · rw [h]
    exact SavesOnly_of_tags (T := [Tag.ask message, Tag.say]) (r := (Exit.aborted, _))
      registration (by intro ev hev; simp at hev; rcases hev with rfl | rfl <;>
        simp [Event.tag, Println]) (by simp) (by simp) (by simp)

theorem saveRegistration_savesOnly (lib : Lib) (registration : Registration) (config : Config)
    (reader : Reader) :
    SavesOnly registration (saveRegistration lib registration config reader).2 := by
  unfold saveRegistration
  refine SavesOnly_prompt _ _ _ _ _ fun path rd => ?_
  rw [emit_snd]
  refine SavesOnly_save _ _ fun reg => ?_
  cases lib.RegistrationSave registration path
  · exact SavesOnly_cons (by simp [Event.tag])
      (SavesOnly_of_tags reg (confirmConfig_tags _ _ _) (by decide) (by decide) (by decide))
  · exact SavesOnly_of_tags (T := [Tag.say]) (r := (Exit.aborted, _)) reg
      (by intro ev hev; simp at hev; subst hev; simp [Event.tag, Println])
      (by simp) (by simp) (by simp)

theorem previewRegistration_savesOnly (lib : Lib) (registration : Registration)
    (config : Config) (err : Option Err) (reader : Reader) :
    SavesOnly registration (previewRegistration lib registration config err reader).2 := by
  unfold previewRegistration
  rw [emit_snd]
  refine SavesOnly_cons (by simp [Event.tag]) ?_
  dsimp only
  split
  · exact SavesOnly_of_tags (T := [Tag.say]) (r := (Exit.aborted, _)) registration
      (by intro ev hev; simp at hev; subst hev; simp [Event.tag, Println])
      (by simp) (by simp) (by simp)
  · rw [emit_snd]
    refine SavesOnly_cons (by simp [Event.tag]) ?_
    unfold confirmRegistration
    refine SavesOnly_prompt _ _ _ _ _ fun ok rd => ?_
    dsimp only
    split
    · exact SavesOnly_of_tags (T := [Tag.say]) (r := (Exit.cancelled, _)) registration
        (by intro ev hev; simp at hev; subst hev; simp [Event.tag, Println])
        (by simp) (by simp) (by simp)
    · exact saveRegistration_savesOnly _ _ _ _

theorem Reserved_of_savesOnly {lib : Lib} {reserveRooms reserveUsers : Bool}
    {ns0 : Namespaces} {evs : List Event}
    (h : registers evs = []) (hs : ∀ reg path, Event.SaveRegistration reg path ∉ evs) :
    Reserved lib reserveRooms reserveUsers ns0 evs :=
  ⟨⟨[]⟩, ⟨[]⟩, Or.inl h, fun reg path hmem => absurd hmem (hs reg path)⟩

theorem Reserved_cons {lib : Lib} {reserveRooms reserveUsers : Bool} {ns0 : Namespaces}
    {ev : Event} {evs : List Event}
    (h : ev.tag ≠ Tag.RegisterRoomAliases ∧ ev.tag ≠ Tag.RegisterUserIDs
      ∧ ev.tag ≠ Tag.SaveRegistration)
    (hs : Reserved lib reserveRooms reserveUsers ns0 evs) :
    Reserved lib reserveRooms reserveUsers ns0 (ev :: evs) := by
  obtain ⟨room, user, h1, h2⟩ := hs
  refine ⟨room, user, ?_, fun reg path hmem => ?_⟩
  · rw [registers_cons_ne _ _ ⟨h.1, h.2.1⟩]
    exact h1
  · rw [registers_cons_ne _ _ ⟨h.1, h.2.1⟩]
    simp only [List.mem_cons] at hmem
    rcases hmem with rfl | hmem
    · exact absurd rfl h.2.2
    · exact h2 reg path hmem

theorem Reserved_abort {lib : Lib} {reserveRooms reserveUsers : Bool} {ns0 : Namespaces}
    (evs : List Event) (h : ∀ ev ∈ evs, ev.tag = Tag.say ∨ ∃ m, ev.tag = Tag.ask m) :
    Reserved lib reserveRooms reserveUsers ns0 evs := by
  refine Reserved_of_savesOnly (registers_eq_nil fun ev hev => ?_) fun reg path hmem => ?_
  · rcases h ev hev with hs | ⟨m, hs⟩ <;> rw [hs] <;> simp
  · rcases h _ hmem with hs | ⟨m, hs⟩ <;> simp [Event.tag] at hs

theorem Reserved_prompt {lib : Lib} {reserveRooms reserveUsers : Bool} {ns0 : Namespaces}
    (reader : Reader) (message d : Str) (k : Str → Reader → Run)
    (hk : ∀ val rd, Reserved lib reserveRooms reserveUsers ns0 (k val rd).2) :
    Reserved lib reserveRooms reserveUsers ns0 (prompt reader message d k).2 := by
  rcases prompt_cases reader message d k with ⟨L, rest, -, -, h⟩ | ⟨-, h⟩
  · rw [h]
    exact Reserved_cons (by simp [Event.tag]) (hk _ _)
  · rw [h]
    refine Reserved_abort _ fun ev hev => ?_
    simp only [List.mem_cons, List.mem_singleton, List.not_mem_nil, or_false] at hev
    rcases hev with rfl | rfl
    · exact Or.inr ⟨_, rfl⟩
    · exact Or.inl rfl

theorem reserveNamespaces_reserved (lib : Lib) (name : Str) (reserveRooms reserveUsers : Bool)
    (registration : Registration) (config : Config) (err : Option Err) (reader : Reader) :
    Reserved lib reserveRooms reserveUsers registration.Namespaces
      (reserveNamespaces lib name reserveRooms reserveUsers registration config err
        reader).2 := by
  by_cases hflags : (reserveRooms || reserveUsers) = true
  · obtain ⟨buf, e⟩ := reader
    suffices hall : ∀ n (buf : Str), buf.length = n →
        Reserved lib reserveRooms reserveUsers registration.Namespaces
          (reserveNamespaces lib name reserveRooms reserveUsers registration config err
            ⟨buf, e⟩).2 from hall _ buf rfl
    intro n
    induction n using Nat.strong_induction_on with
    | _ n ih =>
      intro buf hn
      rcases reader_cases ⟨buf, e⟩ with ⟨L, rest, hL, hr⟩ | hr
      · rw [hr, reserveNamespaces_line _ _ _ _ _ _ _ _ _ _ hL hflags, emit_snd]
        have hlen : rest.length < n := by
          have := congrArg (fun r => r.buf.length) hr
          simp at this
          omega
        refine Reserved_cons (by simp [Event.tag]) ?_
        split
        · rw [emit_snd]
          exact Reserved_cons (by simp [Event.tag, Println]) (ih _ hlen rest rfl)
        · split
          · exact Reserved_abort _ (by simp [Event.tag, Println])
          · rename_i room _ _ user _
            dsimp only
            obtain ⟨h1, h2⟩ := previewRegistration_savesOnly lib
              (registerNamespaces lib reserveRooms reserveUsers registration room user)
              config err ⟨rest, e⟩
            have hreg : registers
                (registerEvents reserveRooms reserveUsers room user
                  ++ (previewRegistration lib
                    (registerNamespaces lib reserveRooms reserveUsers registration room user)
                    config err ⟨rest, e⟩).2)
                = (if reserveRooms then [Event.RegisterRoomAliases room true] else [])
                  ++ (if reserveUsers then [Event.RegisterUserIDs user true] else []) := by
              unfold registers at h1 ⊢
              rw [List.filter_append, h1]
              cases reserveRooms <;> cases reserveUsers <;> rfl
            refine ⟨room, user, Or.inr hreg, fun reg path hmem => ⟨hreg, ?_⟩⟩
            have hmem' : Event.SaveRegistration reg path
                ∈ (previewRegistration lib
                    (registerNamespaces lib reserveRooms reserveUsers registration room user)
                    config err ⟨rest, e⟩).2 := by
              rcases List.mem_append.mp hmem with hm | hm
              · exfalso
                cases reserveRooms <;> cases reserveUsers <;> simp [registerEvents] at hm
              · exact hm
            rw [h2 reg path hmem']
            cases reserveRooms <;> cases reserveUsers <;> rfl
      · rw [reserveNamespaces_eof _ _ _ _ _ _ _ _ _ hr hflags]
        exact Reserved_abort _ (by simp [Event.tag, Println])
  · rw [reserveNamespaces, if_neg hflags]
    obtain ⟨h1, h2⟩ := previewRegistration_savesOnly lib registration config err reader
    have hrr : reserveRooms = false := by cases reserveRooms <;> simp_all
    have hru : reserveUsers = false := by cases reserveUsers <;> simp_all
    subst hrr hru
    exact ⟨⟨[]⟩, ⟨[]⟩, Or.inl h1, fun reg path hmem => ⟨h1, by rw [h2 reg path hmem]; rfl⟩⟩

theorem askPort_reserved (lib : Lib) (name : Str) (reserveRooms reserveUsers : Bool)
    (registration : Registration) (config : Config) (asProtocol asHostname : Str)
    (reader : Reader) :
    Reserved lib reserveRooms reserveUsers registration.Namespaces
      (askPort lib name reserveRooms reserveUsers registration config asProtocol asHostname
        reader).2 := by
  unfold askPort
  refine Reserved_prompt _ _ _ _ fun asInput rd => ?_
  split
  · exact Reserved_abort _ (by simp [Event.tag, Println])
  · unfold askHomeserver
    refine Reserved_prompt _ _ _ _ fun url rd => Reserved_prompt _ _ _ _ fun domain rd => ?_
    rw [askLogDirectory_eq]
    refine Reserved_prompt _ _ _ _ fun dir rd => ?_
    rw [emit_snd]
    exact Reserved_cons (by simp [Event.tag]) (reserveNamespaces_reserved _ _ _ _ _ _ _ _)

theorem askProtocol_reserved (lib : Lib) (name : Str) (reserveRooms reserveUsers : Bool)
    (registration : Registration) (config : Config) (reader : Reader) :
    Reserved lib reserveRooms reserveUsers registration.Namespaces
      (askProtocol lib name reserveRooms reserveUsers registration config reader).2 := by
  have hhost : ∀ config asProtocol rd,
      Reserved lib reserveRooms reserveUsers registration.Namespaces
        (askHostname lib name reserveRooms reserveUsers registration config asProtocol
          rd).2 := by
    intro config asProtocol rd
    unfold askHostname
    exact Reserved_prompt _ _ _ _ fun host rd => askPort_reserved _ _ _ _ _ _ _ _ _
  unfold askProtocol
  refine Reserved_prompt _ _ _ _ fun asProtocol rd => ?_
  split
  · refine Reserved_prompt _ _ _ _ fun sslInput rd => ?_
    dsimp only
    split
    · exact Reserved_prompt _ _ _ _ fun cert rd => Reserved_prompt _ _ _ _ fun key rd =>
        hhost _ _ _
    · exact hhost _ _ _
  · exact hhost _ _ _

/-- The reservations of a whole run, from the namespaces that
`CreateRegistration` gave the registration. -/
theorem GenerateRegistration_reserved (lib : Lib) (asName botName : Str)
    (reserveRooms reserveUsers : Bool) (reader : Reader) (name : Str)
    (hname : answerTo "Enter name for appservice"
      (GenerateRegistration lib asName botName reserveRooms reserveUsers reader).2
        = some name) :
    Reserved lib reserveRooms reserveUsers (lib.CreateRegistration name).Namespaces
      (GenerateRegistration lib asName botName reserveRooms reserveUsers reader).2 := by
  unfold GenerateRegistration at hname ⊢
  rw [emit_snd] at hname ⊢
  refine Reserved_cons (by simp [Event.tag]) ?_
  rw [answerTo_cons_ne _ _ _ (by simp [Event.tag])] at hname
  rcases prompt_cases reader "Enter name for appservice" asName (fun name reader =>
      prompt reader "Enter bot username" botName fun botName reader =>
        askProtocol lib name reserveRooms reserveUsers
          { lib.CreateRegistration name with RateLimited := false, SenderLocalpart := botName }
          lib.Create reader) with ⟨L, rest, -, -, h⟩ | ⟨-, h⟩
  · have h' : _ = emit _ _ := h
    rw [h'] at hname ⊢
    rw [emit_snd, answerTo_cons_ask] at hname
    injection hname with hname
    subst hname
    rw [emit_snd]
    refine Reserved_cons (by simp [Event.tag]) ?_
    exact Reserved_prompt _ _ _ _ fun bot rd =>
      askProtocol_reserved lib (answer L asName) reserveRooms reserveUsers
        { lib.CreateRegistration (answer L asName) with
          RateLimited := false, SenderLocalpart := bot }
        lib.Create rd
  · have h' : _ = (Exit.aborted, _) := h
    rw [h']
    exact Reserved_abort _ (by simp [Event.tag, Println])
/-! ## The claims -/

/-- C1. `readString` equals its reference definition.  On an input whose first
line is `L` followed by a line feed, `readString` returns, without error,
`readStringSpec L d`: the default `d` when `L` without one trailing carriage
return is empty (so for the lines `\n` and `\r\n`), and otherwise `L` without
that carriage return, whatever `d` is; it leaves `rest` unread. -/
theorem readString_reference (message d L rest : Str) (e : Err) (hL : '\n' ∉ L) :
    readString ⟨L ++ '\n' :: rest, e⟩ message d
        = ((readStringSpec L d, none), ⟨rest, e⟩, .ask message d (L ++ ['\n']) none)
      ∧ (L = [] ∨ L = ['\r'] → readStringSpec L d = d)
      ∧ (L ≠ [] → L.getLast? ≠ some '\r' → ∀ d', readStringSpec L d' = L)
      ∧ (∀ s, s ≠ [] → L = s ++ ['\r'] → ∀ d', readStringSpec L d' = s) := by
  refine ⟨?_, ?_, ?_, ?_⟩
  · rw [readString_line _ _ _ _ _ hL, answer_eq_spec]
  · rintro (rfl | rfl) <;> simp [readStringSpec, stripCR]
  · intro h1 h2 d'
    simp [readStringSpec, stripCR, h1, h2]
  · rintro s hs rfl d'
    simp [readStringSpec, stripCR, hs]

/-- Witness of C1: the line `botuser\r\n` answers `botuser`, whatever the default. -/
theorem readString_reference_witness :
    '\n' ∉ ("botuser\r" : Str)
      ∧ readString (stdin "botuser\r\nhttp\n") "Enter bot username" "appservice"
        = ((("botuser" : Str), none), stdin "http\n",
            .ask "Enter bot username" "appservice" "botuser\r\n" none) :=
  ⟨by decide,
    (readString_reference "Enter bot username" "appservice" "botuser\r" "http\n" "EOF"
      (by decide)).1⟩

/-- C2, counterexample.  The port answer `70000` is a base-10 integer outside
`[0, 65535]`, and the run does not abort at the port step: the next prompt is
issued, the run ends done, and both documents are saved. -/
theorem port_70000_not_rejected :
    stdLib.Atoi "70000" = .ok 70000
      ∧ ¬ ((0 : Int) ≤ 70000 ∧ (70000 : Int) ≤ 65535)
      ∧ Event.ask "Enter appservice host port" "29313" "70000\n" none ∈ run70000.2
      ∧ Event.ask "Enter homeserver address" "http://localhost:8008" "http://localhost:8008\n"
          none ∈ run70000.2
      ∧ run70000.1 = Exit.done
      ∧ saveTags run70000.2 = [Tag.SaveRegistration, Tag.SaveConfig] := by
  decide

/-- C2, as amended.  For every port answer that `strconv.Atoi` rejects, the run
aborts at the port step.  From the port prompt on, the run consists of the
prompt and the diagnostic; and in every run of `GenerateRegistration`, a port
prompt whose answer `strconv.Atoi` rejects is preceded by no `Save` and is
followed by the diagnostic only, so that no later prompt is issued and neither
document is ever saved. -/
theorem port_rejected_aborts (lib : Lib) (reserveRooms reserveUsers : Bool) :
    (∀ (name : Str) (registration : Registration) (config : Config)
        (asProtocol asHostname L rest : Str) (e convErr : Err),
        '\n' ∉ L → lib.Atoi (answer L "29313") = .error convErr →
          askPort lib name reserveRooms reserveUsers registration config asProtocol asHostname
              ⟨L ++ '\n' :: rest, e⟩
            = (Exit.aborted,
                [.ask "Enter appservice host port" "29313" (L ++ ['\n']) none,
                  Println ["Failed to parse port:", convErr]]))
      ∧ ∀ (asName botName : Str) (reader : Reader) (pre : List Event) (d data : Str)
          (post : List Event) (convErr : Err),
          (GenerateRegistration lib asName botName reserveRooms reserveUsers reader).2
              = pre ++ Event.ask "Enter appservice host port" d data none :: post →
            lib.Atoi (trimLine data d) = .error convErr →
              (GenerateRegistration lib asName botName reserveRooms reserveUsers reader).1
                  = Exit.aborted
                ∧ post = [Println ["Failed to parse port:", convErr]]
                ∧ ∀ ev ∈ pre, ev.tag ≠ Tag.SaveRegistration ∧ ev.tag ≠ Tag.SaveConfig := by
  refine ⟨?_, ?_⟩
  · intro name registration config asProtocol asHostname L rest e convErr hL h
    rw [askPort_line _ _ _ _ _ _ _ _ _ _ _ hL, h]
    rfl
  · intro asName botName reader pre d data post convErr h hc
    obtain ⟨h1, h2, -⟩ := GenerateRegistration_portStep lib asName botName reserveRooms
      reserveUsers reader pre d data post h
    exact ⟨(h2 convErr hc).1, (h2 convErr hc).2, h1⟩

/-- Witness of C2 as amended: the port answer `abc` ends the run at the port step. -/
theorem port_rejected_aborts_witness :
    '\n' ∉ ("abc" : Str)
      ∧ stdLib.Atoi (answer "abc" "29313")
          = .error ("strconv.Atoi: parsing \"abc\": invalid syntax" : Str)
      ∧ askPort stdLib "myapp" false false registration0 stdLib.Create "http" "localhost"
            (stdin "abc\nhttp://localhost:8008\n")
          = (Exit.aborted,
              [.ask "Enter appservice host port" "29313" "abc\n" none,
                Println ["Failed to parse port:",
                  ("strconv.Atoi: parsing \"abc\": invalid syntax" : Str)]]) :=
  ⟨by decide, by decide,
    (port_rejected_aborts stdLib false false).1 "myapp" registration0 stdLib.Create "http"
      "localhost" "abc" "http://localhost:8008\n" "EOF" _ (by decide) (by decide)⟩

/-- C3. The two confirmation checkpoints.  An empty line is answered by the
default `yes`.  On the answer line `L`, the registration checkpoint goes on to
the prompt for the save path exactly when the lower-cased answer is `yes` or
`y`; for every other answer the run is cancelled and its remaining events are
the prompt and the cancelling message, so nothing is saved.  The config
checkpoint behaves the same way.  In every run nothing was saved before the
prompt of the registration checkpoint, and no config was saved before the
prompt of the config checkpoint. -/
theorem confirmation_checkpoints (lib : Lib) (registration : Registration) (config : Config)
    (L rest : Str) (e : Err) (hL : '\n' ∉ L) :
    answer [] "yes" = yes
      ∧ ((lib.ToLower (answer L "yes") = yes ∨ lib.ToLower (answer L "yes") = yesShort) →
          confirmRegistration lib registration config ⟨L ++ '\n' :: rest, e⟩
              = emit (.ask "Does the registration look OK [yes/no]?" "yes" (L ++ ['\n']) none)
                  (saveRegistration lib registration config ⟨rest, e⟩)
            ∧ (∃ data err tail, (saveRegistration lib registration config ⟨rest, e⟩).2
                = .ask "Where should the registration be saved?" "registration.yaml" data err
                    :: tail)
            ∧ confirmConfig lib config ⟨L ++ '\n' :: rest, e⟩
              = emit (.say .boldCyan "\n======= Config generated =======\n")
                  (emit (.say .yellow (lib.ConfigYAML config ++ ['\n']))
                    (emit (.ask "Does the config look OK [yes/no]?" "yes" (L ++ ['\n']) none)
                      (saveConfig lib config ⟨rest, e⟩)))
            ∧ (∃ data err tail, (saveConfig lib config ⟨rest, e⟩).2
                = .ask "Where should the config be saved?" "config.yaml" data err :: tail))
      ∧ (¬ (lib.ToLower (answer L "yes") = yes ∨ lib.ToLower (answer L "yes") = yesShort) →
          confirmRegistration lib registration config ⟨L ++ '\n' :: rest, e⟩
              = (Exit.cancelled,
                  [.ask "Does the registration look OK [yes/no]?" "yes" (L ++ ['\n']) none,
                    Println ["Cancelling generation."]])
            ∧ confirmConfig lib config ⟨L ++ '\n' :: rest, e⟩
              = (Exit.cancelled,
                  [.say .boldCyan "\n======= Config generated =======\n",
                    .say .yellow (lib.ConfigYAML config ++ ['\n']),
                    .ask "Does the config look OK [yes/no]?" "yes" (L ++ ['\n']) none,
                    Println ["Cancelling generation."]]))
      ∧ ∀ (asName botName : Str) (reserveRooms reserveUsers : Bool) (reader : Reader)
          (pre : List Event) (d data : Str) (err : Option Err) (post : List Event),
          ((GenerateRegistration lib asName botName reserveRooms reserveUsers reader).2
              = pre ++ Event.ask "Does the registration look OK [yes/no]?" d data err :: post →
            ∀ ev ∈ pre, ev.tag ≠ Tag.SaveRegistration ∧ ev.tag ≠ Tag.SaveConfig)
          ∧ ((GenerateRegistration lib asName botName reserveRooms reserveUsers reader).2
              = pre ++ Event.ask "Does the config look OK [yes/no]?" d data err :: post →
            ∀ ev ∈ pre, ev.tag ≠ Tag.SaveConfig) := by
  refine ⟨by decide, fun h => ⟨?_, prompt_head _ _ _ _, ?_, prompt_head _ _ _ _⟩,
    fun h => ⟨?_, ?_⟩, fun asName botName reserveRooms reserveUsers reader pre d data err post =>
      ⟨fun h ev hev => ?_, fun h ev hev => ?_⟩⟩
  rotate_right 2
  · have hle : ev.tag.phase ≤ 16 :=
      phase_le_of_precedes _ _ _ _ _ _ _ _ _ h (by simp [Event.tag]) ev hev
    refine ⟨?_, ?_⟩ <;> intro ht <;> rw [ht] at hle <;> simp [Tag.phase] at hle
  · have hle : ev.tag.phase ≤ 19 :=
      phase_le_of_precedes _ _ _ _ _ _ _ _ _ h (by simp [Event.tag]) ev hev
    intro ht
    rw [ht] at hle
    simp [Tag.phase] at hle
  · rw [confirmRegistration, prompt_line _ _ _ _ _ _ hL]
    have : ¬ (lib.ToLower (answer L "yes") ≠ yesShort ∧ lib.ToLower (answer L "yes") ≠ yes) := by
      tauto
    rw [if_neg this]
  · rw [confirmConfig, prompt_line _ _ _ _ _ _ hL]
    have : ¬ (lib.ToLower (answer L "yes") ≠ yesShort ∧ lib.ToLower (answer L "yes") ≠ yes) := by
      tauto
    rw [if_neg this]
  · rw [confirmRegistration, prompt_line _ _ _ _ _ _ hL]
    have : lib.ToLower (answer L "yes") ≠ yesShort ∧ lib.ToLower (answer L "yes") ≠ yes := by
      tauto
    rw [if_pos this]
    rfl
  · rw [confirmConfig, prompt_line _ _ _ _ _ _ hL]
    have : lib.ToLower (answer L "yes") ≠ yesShort ∧ lib.ToLower (answer L "yes") ≠ yes := by
      tauto
    rw [if_pos this]
    rfl

/-- Witness of C3: the answer ` yes`, with a leading blank, cancels the run at the
registration checkpoint. -/
theorem confirmation_checkpoints_witness :
    '\n' ∉ (" yes" : Str)
      ∧ ¬ (stdLib.ToLower (answer " yes" "yes") = yes
            ∨ stdLib.ToLower (answer " yes" "yes") = yesShort)
      ∧ confirmRegistration stdLib registration0 stdLib.Create (stdin " yes\nreg.yaml\n")
          = (Exit.cancelled,
              [.ask "Does the registration look OK [yes/no]?" "yes" " yes\n" none,
                Println ["Cancelling generation."]]) :=
  ⟨by decide, by decide,
    ((confirmation_checkpoints stdLib registration0 stdLib.Create " yes" "reg.yaml\n" "EOF"
      (by decide)).2.2.1 (by decide)).1⟩

/-- C4, the code at the failing input.  Whatever `registration.YAML()` returns
as its error, the preview step goes on to the confirmation prompt: line 168
tests the variable `err`, which is nil there, and not `yamlErr`.  In the
end-to-end scenario with a `registration.YAML()` that fails, the run issues the
registration confirmation prompt, calls `registration.Save` and ends done. -/
theorem yaml_error_not_checked :
    (∀ (lib : Lib) (registration : Registration) (config : Config) (reader : Reader),
        previewRegistration lib registration config none reader
          = emit (.say .boldCyan "\n==== Registration generated ====\n")
              (emit (.say .yellow ((lib.RegistrationYAML registration).1 ++ ['\n']))
                (confirmRegistration lib registration config reader)))
      ∧ (∀ registration, yamlFails.RegistrationYAML registration
          = ([], some ("yaml: cannot marshal" : Str)))
      ∧ runYamlFails.1 = Exit.done
      ∧ Event.ask "Does the registration look OK [yes/no]?" "yes" "yes\n" none ∈ runYamlFails.2
      ∧ saveTags runYamlFails.2 = [Tag.SaveRegistration, Tag.SaveConfig] := by
  refine ⟨fun lib registration config reader => rfl, fun _ => rfl, ?_, ?_, ?_⟩ <;> decide

/-- C5, counterexample.  The end-to-end scenario with the port answer `70000`
completes both checkpoints, and the saved documents do not carry one port: the
registration URL ends in `70000` and the config port is `4464`, so the URL is
not `<protocol>://<hostname>:<port>` for the port of the config. -/
theorem port_70000_documents_disagree :
    run70000.1 = Exit.done
      ∧ answerTo "Enter appservice host port" run70000.2 = some ("70000" : Str)
      ∧ saves run70000.2
          = [.SaveRegistration
                { ID := "myapp", URL := "http://localhost:70000", SenderLocalpart := "botuser",
                  RateLimited := false, Namespaces := { UserIDs := [], RoomAliases := [] } }
                "reg.yaml",
              .SaveConfig
                { Host := { Hostname := "localhost", Port := 4464, TLSCert := [], TLSKey := [] },
                  HomeserverURL := "http://localhost:8008", HomeserverDomain := "example.com",
                  LogConfig := { Directory := "./logs" }, RegistrationPath := "reg.yaml" }
                "cfg.yaml"]
      ∧ ("http://localhost:70000" : Str)
          ≠ ("http" : Str) ++ ("://" : Str) ++ ("localhost" : Str) ++ [':'] ++ itoa 4464 := by
  decide

/-- C5, as amended.  For every run of `GenerateRegistration` that completes
both checkpoints, exactly two documents were saved, the registration and then
the config, and they are this function of the answers: with `asPort` the
integer that `strconv.Atoi` made of the port answer, the registration has URL
`<protocol>://<hostname>:<asPort>`, `SenderLocalpart` the bot-username answer
and `RateLimited` false; the config has `Host.Hostname` the hostname answer,
`Host.Port` equal to `asPort` when `0 ≤ asPort ≤ 65535`, `HomeserverURL`,
`HomeserverDomain` and `LogConfig.Directory` the corresponding answers, and
`RegistrationPath` the path that was passed to `registration.Save`. -/
theorem saved_documents (lib : Lib) (asName botName : Str) (reserveRooms reserveUsers : Bool)
    (reader : Reader)
    (h : (GenerateRegistration lib asName botName reserveRooms reserveUsers reader).1
      = Exit.done) :
    ∃ (registration : Registration) (regPath : Str) (config : Config) (cfgPath : Str)
      (asProtocol asHostname asInput : Str) (asPort : Int),
      saves (GenerateRegistration lib asName botName reserveRooms reserveUsers reader).2
          = [.SaveRegistration registration regPath, .SaveConfig config cfgPath]
        ∧ answerTo "Enter bot username"
            (GenerateRegistration lib asName botName reserveRooms reserveUsers reader).2
          = some registration.SenderLocalpart
        ∧ answerTo "Enter appservice host protocol"
            (GenerateRegistration lib asName botName reserveRooms reserveUsers reader).2
          = some asProtocol
        ∧ answerTo "Enter appservice hostname"
            (GenerateRegistration lib asName botName reserveRooms reserveUsers reader).2
          = some asHostname
        ∧ answerTo "Enter appservice host port"
            (GenerateRegistration lib asName botName reserveRooms reserveUsers reader).2
          = some asInput
        ∧ lib.Atoi asInput = .ok asPort
        ∧ registration.URL = asProtocol ++ ("://" : Str) ++ asHostname ++ [':'] ++ itoa asPort
        ∧ registration.RateLimited = false
        ∧ config.Host.Hostname = asHostname
        ∧ (0 ≤ asPort ∧ asPort ≤ 65535 → (config.Host.Port : Int) = asPort)
        ∧ answerTo "Enter homeserver address"
            (GenerateRegistration lib asName botName reserveRooms reserveUsers reader).2
          = some config.HomeserverURL
        ∧ answerTo "Enter homeserver domain"
            (GenerateRegistration lib asName botName reserveRooms reserveUsers reader).2
          = some config.HomeserverDomain
        ∧ answerTo "Enter directory for logs"
            (GenerateRegistration lib asName botName reserveRooms reserveUsers reader).2
          = some config.LogConfig.Directory
        ∧ answerTo "Where should the registration be saved?"
            (GenerateRegistration lib asName botName reserveRooms reserveUsers reader).2
          = some regPath
        ∧ config.RegistrationPath = regPath := by
  obtain ⟨registration, regPath, config, cfgPath, asProtocol, asHostname, asInput, asPort, h1,
    h2, h3, h4, h5, h6, h7, h8, h9, h10, h11, h12, h13, h14, h15, -⟩ :=
    GenerateRegistration_done lib asName botName reserveRooms reserveUsers reader h
  refine ⟨registration, regPath, config, cfgPath, asProtocol, asHostname, asInput, asPort, h1,
    h2, h3, h4, h5, h6, h7, h8, h9, ?_, h11, h12, h13, h14, h15⟩
  intro hr
  rw [h10]
  omega

/-- Witness of C5 as amended: the end-to-end scenario of the specification saves
the URL `http://localhost:29313`, the sender `botuser`, the port 29313 and the
registration path `reg.yaml`. -/
theorem saved_documents_witness :
    scenario.1 = Exit.done
      ∧ ∃ (registration : Registration) (regPath : Str) (config : Config) (cfgPath : Str),
          saves scenario.2
              = [.SaveRegistration registration regPath, .SaveConfig config cfgPath]
            ∧ registration.URL = ("http://localhost:29313" : Str)
            ∧ registration.SenderLocalpart = ("botuser" : Str)
            ∧ registration.RateLimited = false
            ∧ config.Host.Hostname = ("localhost" : Str)
            ∧ config.Host.Port = 29313
            ∧ config.HomeserverURL = ("http://localhost:8008" : Str)
            ∧ config.HomeserverDomain = ("example.com" : Str)
            ∧ config.LogConfig.Directory = ("./logs" : Str)
            ∧ config.RegistrationPath = ("reg.yaml" : Str)
            ∧ regPath = ("reg.yaml" : Str) := by
  refine ⟨by decide, ?_⟩
  obtain ⟨registration, regPath, config, cfgPath, asProtocol, asHostname, asInput, asPort, h1,
    h2, h3, h4, h5, h6, h7, h8, h9, h10, h11, h12, h13, h14, h15⟩ :=
    saved_documents stdLib "appservice" "bot" false false
      (stdin ("myapp\nbotuser\nhttp\nlocalhost\n29313\nhttp://localhost:8008\nexample.com\n"
        ++ "./logs\nyes\nreg.yaml\nyes\ncfg.yaml\n")) (by decide)
  have e2 : some ("botuser" : Str) = some registration.SenderLocalpart := h2
  have e3 : some ("http" : Str) = some asProtocol := h3
  have e4 : some ("localhost" : Str) = some asHostname := h4
  have e5 : some ("29313" : Str) = some asInput := h5
  have e11 : some ("http://localhost:8008" : Str) = some config.HomeserverURL := h11
  have e12 : some ("example.com" : Str) = some config.HomeserverDomain := h12
  have e13 : some ("./logs" : Str) = some config.LogConfig.Directory := h13
  have e14 : some ("reg.yaml" : Str) = some regPath := h14
  injection e2 with e2
  injection e3 with e3
  injection e4 with e4
  injection e5 with e5
  injection e11 with e11
  injection e12 with e12
  injection e13 with e13
  injection e14 with e14
  subst e3 e4 e5 e14
  have e6 : (Except.ok 29313 : Except Err Int) = Except.ok asPort := h6
  injection e6 with e6
  subst e6
  have hp : (config.Host.Port : Int) = 29313 := h10 (by decide)
  refine ⟨registration, _, config, cfgPath, h1, h7, e2.symm, h8, h9, by exact_mod_cast hp,
    e11.symm, e12.symm, e13.symm, h15, rfl⟩

/-- C6, the code at the failing input.  With the protocol answer `https` and
the SSL answer `y`, which the confirmation checkpoints accept as affirmative,
neither TLS path is prompted: the run goes from the SSL question straight to
the hostname prompt, with the config that `Create()` returned.  Line 90
compares with `yes` only, where lines 180 and 208 compare with `y` and `yes`. -/
theorem ssl_answer_y_not_affirmative :
    stdLib.ToLower (answer "y" "yes") = yesShort
      ∧ askProtocol stdLib "myapp" false false registration0 stdLib.Create
            (stdin "https\ny\nlocalhost\n")
          = emit (.ask "Enter appservice host protocol" "http" "https\n" none)
              (emit (.ask "Do you want the appservice to handle SSL [yes/no]?" "yes" "y\n" none)
                (askHostname stdLib "myapp" false false registration0 stdLib.Create "https"
                  (stdin "localhost\n")))
      ∧ confirmRegistration stdLib registration0 stdLib.Create (stdin "y\nreg.yaml\n")
          = emit (.ask "Does the registration look OK [yes/no]?" "yes" "y\n" none)
              (saveRegistration stdLib registration0 stdLib.Create (stdin "reg.yaml\n"))
      ∧ runSslY.1 = Exit.done
      ∧ Tag.ask "Enter path to SSL certificate" ∉ tagsOf runSslY.2
      ∧ Tag.ask "Enter path to SSL key" ∉ tagsOf runSslY.2 := by
  decide

/-- C7. The namespace prompt is gated by the two flags.
(1) At the namespace step the prefix prompt is issued if and only if
`reserveRooms` or `reserveUsers` is set.
(2) In a whole run a prefix prompt, a `RegisterRoomAliases` call and a
`RegisterUserIDs` call occur only when, respectively, one of the flags,
`reserveRooms` and `reserveUsers` is set.
(3) When the two patterns of the answered prefix compile, the step consists of
one prefix prompt, then `RegisterRoomAliases(room, true)` exactly when
`reserveRooms` is set, then `RegisterUserIDs(user, true)` exactly when
`reserveUsers` is set, and then the rest of the run, which issues no prefix
prompt and registers nothing; and the rest of the run works on the
registration whose namespaces are what these calls return, the other fields
being unchanged.
(4) With both flags unset the step does nothing: the run goes on with the
registration unchanged.
(5) When the read of the prefix fails the prompt was issued once and the run is
aborted.
(6) In a whole run all `Register` calls have `exclusive = true` and are those of
one such iteration, and every registration that is saved has the namespaces
that these calls made of the namespaces `CreateRegistration` returned: with
`reserveRooms` set and `reserveUsers` not, the result of the room-alias call
alone; with both unset, the namespaces as created. -/
theorem namespace_gating (lib : Lib) (name : Str) (reserveRooms reserveUsers : Bool)
    (registration : Registration) (config : Config) (err : Option Err) :
    (∀ reader,
        (∃ ev ∈ (reserveNamespaces lib name reserveRooms reserveUsers registration config err
            reader).2, ev.tag = Tag.ask "Enter namespace prefix")
          ↔ (reserveRooms = true ∨ reserveUsers = true))
      ∧ (∀ asName botName reader,
          ∀ ev ∈ (GenerateRegistration lib asName botName reserveRooms reserveUsers reader).2,
            (ev.tag = Tag.ask "Enter namespace prefix" →
                reserveRooms = true ∨ reserveUsers = true)
              ∧ (ev.tag = Tag.RegisterRoomAliases → reserveRooms = true)
              ∧ (ev.tag = Tag.RegisterUserIDs → reserveUsers = true))
      ∧ (∀ L rest e room user (registration' : Registration), '\n' ∉ L →
          (reserveRooms = true ∨ reserveUsers = true) →
          lib.Compile ('#' :: answer L ('_' :: name ++ ['_']) ++ (".+:" : Str)
            ++ config.HomeserverDomain) = .ok room →
          lib.Compile ('@' :: answer L ('_' :: name ++ ['_']) ++ (".+:" : Str)
            ++ config.HomeserverDomain) = .ok user →
          registration'
            = { registration with
                Namespaces :=
                  if reserveUsers then
                    lib.RegisterUserIDs
                      (if reserveRooms then
                        lib.RegisterRoomAliases registration.Namespaces room true
                      else registration.Namespaces)
                      user true
                  else if reserveRooms then
                    lib.RegisterRoomAliases registration.Namespaces room true
                  else registration.Namespaces } →
          reserveNamespaces lib name reserveRooms reserveUsers registration config err
              ⟨L ++ '\n' :: rest, e⟩
            = ((previewRegistration lib registration' config err ⟨rest, e⟩).1,
                Event.ask "Enter namespace prefix" ('_' :: name ++ ['_']) (L ++ ['\n']) none
                  :: ((if reserveRooms then [Event.RegisterRoomAliases room true] else [])
                    ++ (if reserveUsers then [Event.RegisterUserIDs user true] else [])
                    ++ (previewRegistration lib registration' config err ⟨rest, e⟩).2))
            ∧ (∀ ev ∈ (previewRegistration lib registration' config err ⟨rest, e⟩).2,
                ev.tag ∈ tagsRegistration)
            ∧ namespacePrompts
                (reserveNamespaces lib name reserveRooms reserveUsers registration config err
                  ⟨L ++ '\n' :: rest, e⟩).2 = 1)
      ∧ (reserveRooms = false → reserveUsers = false → ∀ reader,
          reserveNamespaces lib name reserveRooms reserveUsers registration config err reader
            = previewRegistration lib registration config err reader)
      ∧ (∀ buf e, (reserveRooms = true ∨ reserveUsers = true) → '\n' ∉ buf →
          reserveNamespaces lib name reserveRooms reserveUsers registration config err ⟨buf, e⟩
            = (Exit.aborted,
                [.ask "Enter namespace prefix" ('_' :: name ++ ['_']) buf (some e),
                  Println ["Failed to read user Input:", e]]))
      ∧ ∀ (asName botName : Str) (reader : Reader) (appName : Str),
          answerTo "Enter name for appservice"
              (GenerateRegistration lib asName botName reserveRooms reserveUsers reader).2
            = some appName →
          ∃ room user : Regexp,
            (registers
                  (GenerateRegistration lib asName botName reserveRooms reserveUsers reader).2
                = []
              ∨ registers
                  (GenerateRegistration lib asName botName reserveRooms reserveUsers reader).2
                = (if reserveRooms then [Event.RegisterRoomAliases room true] else [])
                  ++ (if reserveUsers then [Event.RegisterUserIDs user true] else []))
            ∧ ∀ reg path,
                Event.SaveRegistration reg path
                    ∈ (GenerateRegistration lib asName botName reserveRooms reserveUsers
                      reader).2 →
                  registers
                      (GenerateRegistration lib asName botName reserveRooms reserveUsers
                        reader).2
                    = (if reserveRooms then [Event.RegisterRoomAliases room true] else [])
                      ++ (if reserveUsers then [Event.RegisterUserIDs user true] else [])
                  ∧ reg.Namespaces
                    = (if reserveUsers then
                        lib.RegisterUserIDs
                          (if reserveRooms then
                            lib.RegisterRoomAliases (lib.CreateRegistration appName).Namespaces
                              room true
                          else (lib.CreateRegistration appName).Namespaces)
                          user true
                      else if reserveRooms then
                        lib.RegisterRoomAliases (lib.CreateRegistration appName).Namespaces
                          room true
                      else (lib.CreateRegistration appName).Namespaces) := by
  have hflags : (reserveRooms = true ∨ reserveUsers = true) →
      (reserveRooms || reserveUsers) = true := by simp
  have hstep : ∀ L rest e room user (registration' : Registration), '\n' ∉ L →
      (reserveRooms = true ∨ reserveUsers = true) →
      lib.Compile ('#' :: answer L ('_' :: name ++ ['_']) ++ (".+:" : Str)
        ++ config.HomeserverDomain) = .ok room →
      lib.Compile ('@' :: answer L ('_' :: name ++ ['_']) ++ (".+:" : Str)
        ++ config.HomeserverDomain) = .ok user →
      registration'
        = { registration with
            Namespaces :=
              if reserveUsers then
                lib.RegisterUserIDs
                  (if reserveRooms then
                    lib.RegisterRoomAliases registration.Namespaces room true
                  else registration.Namespaces)
                  user true
              else if reserveRooms then
                lib.RegisterRoomAliases registration.Namespaces room true
              else registration.Namespaces } →
      reserveNamespaces lib name reserveRooms reserveUsers registration config err
          ⟨L ++ '\n' :: rest, e⟩
        = ((previewRegistration lib registration' config err ⟨rest, e⟩).1,
            Event.ask "Enter namespace prefix" ('_' :: name ++ ['_']) (L ++ ['\n']) none
              :: ((if reserveRooms then [Event.RegisterRoomAliases room true] else [])
                ++ (if reserveUsers then [Event.RegisterUserIDs user true] else [])
                ++ (previewRegistration lib registration' config err ⟨rest, e⟩).2)) := by
    intro L rest e room user registration' hL hf h1 h2 hreg
    have hreg' : registerNamespaces lib reserveRooms reserveUsers registration room user
        = registration' := by
      rw [hreg]
      cases reserveRooms <;> cases reserveUsers <;> rfl
    rw [reserveNamespaces_line _ _ _ _ _ _ _ _ _ _ hL (hflags hf), h1]
    simp only [h2]
    rw [hreg']
    rfl
  refine ⟨fun reader => ⟨?_, fun hf => ?_⟩, fun asName botName reader ev hev => ?_,
    fun L rest e room user registration' hL hf h1 h2 hreg =>
      ⟨hstep L rest e room user registration' hL hf h1 h2 hreg,
        previewRegistration_tags _ _ _ _ _, ?_⟩,
    ?_, fun buf e hf hbuf => reserveNamespaces_eof _ _ _ _ _ _ _ _ _ hbuf (hflags hf),
    fun asName botName reader appName hname =>
      GenerateRegistration_reserved lib asName botName reserveRooms reserveUsers reader appName
        hname⟩
  · rintro ⟨ev, hev, htag⟩
    have := reserveNamespaces_tags lib name reserveRooms reserveUsers registration config err
      reader ev hev
    rw [htag] at this
    cases reserveRooms <;> cases reserveUsers <;>
      simp [tagsNamespaces, tagsRegistration, tagsConfig] at this ⊢
  · obtain ⟨data, err', tail, h⟩ :=
      reserveNamespaces_head lib name reserveRooms reserveUsers registration config err reader
        (hflags hf)
    exact ⟨Event.ask "Enter namespace prefix" ('_' :: name ++ ['_']) data err',
      by rw [h]; exact List.mem_cons_self _ _, rfl⟩
  · have := GenerateRegistration_tags lib asName botName reserveRooms reserveUsers reader ev hev
    refine ⟨fun h => ?_, fun h => ?_, fun h => ?_⟩ <;> rw [h] at this <;>
      cases reserveRooms <;> cases reserveUsers <;>
      simp [tagsRun, tagsAfterPort, tagsNamespaces, tagsRegistration, tagsConfig] at this ⊢
  · rw [hstep L rest e room user registration' hL hf h1 h2 hreg]
    have h0 := namespacePrompts_eq_zero
      (previewRegistration_tags lib registration' config err ⟨rest, e⟩) (by decide)
    have hreg0 : namespacePrompts
        ((if reserveRooms then [Event.RegisterRoomAliases room true] else [])
          ++ (if reserveUsers then [Event.RegisterUserIDs user true] else [])) = 0 := by
      cases reserveRooms <;> cases reserveUsers <;> rfl
    unfold namespacePrompts at h0 hreg0 ⊢
    rw [List.countP_cons, List.countP_append, h0, hreg0]
    rfl
  · intro hrr hru reader
    rw [reserveNamespaces, hrr, hru]
    rfl

/-- Witness of C7: with `reserveRooms` set and `reserveUsers` not, one prefix
prompt is followed by the room-alias reservation only, and the registration
that the run goes on with carries the room-alias reservation. -/
theorem namespace_gating_witness :
    '\n' ∉ ("_app_" : Str)
      ∧ reserveNamespaces stdLib "myapp" true false registration0
            { stdLib.Create with HomeserverDomain := "example.com" } none
            (stdin "_app_\nyes\nreg.yaml\nno\n")
          = (Exit.cancelled,
              [.ask "Enter namespace prefix" "_myapp_" "_app_\n" none,
                .RegisterRoomAliases { expr := "#_app_.+:example.com" } true,
                .say .boldCyan "\n==== Registration generated ====\n",
                .say .yellow "url: \n",
                .ask "Does the registration look OK [yes/no]?" "yes" "yes\n" none,
                .ask "Where should the registration be saved?" "registration.yaml"
                  "reg.yaml\n" none,
                .SaveRegistration
                  { registration0 with
                    Namespaces :=
                      { UserIDs := [],
                        RoomAliases :=
                          [{ Regex := "#_app_.+:example.com", Exclusive := true }] } }
                  "reg.yaml",
                .say .boldGreen "Registration saved.\n",
                .say .boldCyan "\n======= Config generated =======\n",
                .say .yellow "homeserver: \n",
                .ask "Does the config look OK [yes/no]?" "yes" "no\n" none,
                Println ["Cancelling generation."]]) :=
  ⟨by decide,
    ((namespace_gating stdLib "myapp" true false registration0
      { stdLib.Create with HomeserverDomain := "example.com" } none).2.2.1
      "_app_" "yes\nreg.yaml\nno\n" "EOF" { expr := "#_app_.+:example.com" }
      { expr := "@_app_.+:example.com" }
      { registration0 with
        Namespaces :=
          { UserIDs := [],
            RoomAliases := [{ Regex := "#_app_.+:example.com", Exclusive := true }] } }
      (by decide) (by decide) (by decide) (by decide) (by decide)).1⟩

/-- C8. A failed read ends the run.  `readString` returns an error exactly when
the input holds no line feed any more, whether or not it still holds other
characters; it then returns the empty string with the error of the stream, and
the event of the call carries that error.  In every run of
`GenerateRegistration`, a call of `readString` that failed is followed by the
diagnostic and by nothing else, and the run is aborted: no later prompt and no
later `Save`. -/
theorem read_failure_aborts (lib : Lib) (asName botName : Str) (reserveRooms reserveUsers : Bool)
    (reader : Reader) :
    (∀ (rd : Reader) (message d : Str),
        ((readString rd message d).1.2 ≠ none ↔ '\n' ∉ rd.buf)
        ∧ (∃ data, (readString rd message d).2.2
            = .ask message d data (readString rd message d).1.2)
        ∧ ('\n' ∉ rd.buf →
            readString rd message d
              = (([], some rd.err), ⟨[], rd.err⟩, .ask message d rd.buf (some rd.err))))
      ∧ ∀ pre m d data e post,
          (GenerateRegistration lib asName botName reserveRooms reserveUsers reader).2
              = pre ++ Event.ask m d data (some e) :: post →
            (GenerateRegistration lib asName botName reserveRooms reserveUsers reader).1
                = Exit.aborted
              ∧ post = [Println ["Failed to read user Input:", e]] := by
  refine ⟨fun rd message d => ?_, GenerateRegistration_failFinal _ _ _ _ _ _⟩
  rcases reader_cases rd with ⟨L, rest, hL, hr⟩ | h
  · have hmem : '\n' ∈ rd.buf := by rw [hr]; simp
    rw [hr, readString_line _ _ _ _ _ hL]
    refine ⟨by simp, ⟨_, rfl⟩, fun h => absurd (by simp) h⟩
  · obtain ⟨buf, e⟩ := rd
    rw [readString_eof _ _ _ _ h]
    exact ⟨by simpa using h, ⟨_, rfl⟩, fun _ => rfl⟩

/-- Witness of C8: standard input that ends in the middle of the second answer. -/
theorem read_failure_aborts_witness :
    (GenerateRegistration stdLib "appservice" "bot" false false (stdin "myapp\nbotus")).2
        = [.say .boldCyan "Generating appservice config and registration.\n",
            .ask "Enter name for appservice" "appservice" "myapp\n" none]
          ++ Event.ask "Enter bot username" "bot" "botus" (some "EOF")
            :: [Println ["Failed to read user Input:", "EOF"]]
      ∧ (GenerateRegistration stdLib "appservice" "bot" false false (stdin "myapp\nbotus")).1
          = Exit.aborted
      ∧ [Println ["Failed to read user Input:", "EOF"]]
          = [Println ["Failed to read user Input:", "EOF"]] :=
  ⟨by decide,
    (read_failure_aborts stdLib "appservice" "bot" false false (stdin "myapp\nbotus")).2
      [.say .boldCyan "Generating appservice config and registration.\n",
        .ask "Enter name for appservice" "appservice" "myapp\n" none]
      "Enter bot username" "bot" "botus" "EOF" [Println ["Failed to read user Input:", "EOF"]]
      (by decide)⟩

/-- C9. The namespace loop treats the two patterns differently.  On the prefix
answered by the line `L`: if the room-alias pattern `#<prefix>.+:<domain>` does
not compile, the error is printed, nothing is registered, and the loop goes
round again with the same registration, its next event being the prefix
prompt; if it compiles and the user-id pattern `@<prefix>.+:<domain>` does
not, the run is aborted with a diagnostic, whatever the flags: nothing is
registered, no later prompt is issued and nothing is saved; and in every run
nothing was registered or saved before a prefix prompt. -/
theorem namespace_pattern_asymmetry (lib : Lib) (name : Str) (reserveRooms reserveUsers : Bool)
    (registration : Registration) (config : Config) (err : Option Err) (L rest : Str) (e : Err)
    (hL : '\n' ∉ L) (hflags : (reserveRooms || reserveUsers) = true) :
    (∀ compErr,
        lib.Compile ('#' :: answer L ('_' :: name ++ ['_']) ++ (".+:" : Str)
          ++ config.HomeserverDomain) = .error compErr →
        reserveNamespaces lib name reserveRooms reserveUsers registration config err
            ⟨L ++ '\n' :: rest, e⟩
          = emit (.ask "Enter namespace prefix" ('_' :: name ++ ['_']) (L ++ ['\n']) none)
              (emit (Println [compErr])
                (reserveNamespaces lib name reserveRooms reserveUsers registration config err
                  ⟨rest, e⟩))
        ∧ ∃ data err' tail,
            (reserveNamespaces lib name reserveRooms reserveUsers registration config err
              ⟨rest, e⟩).2
              = Event.ask "Enter namespace prefix" ('_' :: name ++ ['_']) data err' :: tail)
      ∧ (∀ room compErr,
          lib.Compile ('#' :: answer L ('_' :: name ++ ['_']) ++ (".+:" : Str)
            ++ config.HomeserverDomain) = .ok room →
          lib.Compile ('@' :: answer L ('_' :: name ++ ['_']) ++ (".+:" : Str)
            ++ config.HomeserverDomain) = .error compErr →
          reserveNamespaces lib name reserveRooms reserveUsers registration config err
              ⟨L ++ '\n' :: rest, e⟩
            = (Exit.aborted,
                [.ask "Enter namespace prefix" ('_' :: name ++ ['_']) (L ++ ['\n']) none,
                  Println ["Failed to generate regexp for the userNamespace:", "<nil>"]]))
      ∧ ∀ asName botName reader pre d data err' post,
          (GenerateRegistration lib asName botName reserveRooms reserveUsers reader).2
              = pre ++ Event.ask "Enter namespace prefix" d data err' :: post →
            ∀ ev ∈ pre,
              ev.tag ≠ Tag.RegisterRoomAliases ∧ ev.tag ≠ Tag.RegisterUserIDs
                ∧ ev.tag ≠ Tag.SaveRegistration ∧ ev.tag ≠ Tag.SaveConfig := by
  refine ⟨fun compErr h => ⟨?_, reserveNamespaces_head _ _ _ _ _ _ _ _ hflags⟩,
    fun room compErr h1 h2 => ?_, ?_⟩
  · rw [reserveNamespaces_line _ _ _ _ _ _ _ _ _ _ hL hflags, h]
  · rw [reserveNamespaces_line _ _ _ _ _ _ _ _ _ _ hL hflags, h1]
    simp only [h2]
    rfl
  · intro asName botName reader pre d data err' post h ev hev
    have hle : ev.tag.phase ≤ 13 :=
      phase_le_of_precedes _ _ _ _ _ _ _ _ _ h (by simp [Event.tag]) ev hev
    refine ⟨?_, ?_, ?_, ?_⟩ <;> intro ht <;> rw [ht] at hle <;> simp [Tag.phase] at hle

/-- Witness of C9: the prefix `(` makes the loop go round again; with a compiler
that rejects the user-id pattern, the prefix `_app_` aborts the run. -/
theorem namespace_pattern_asymmetry_witness :
    '\n' ∉ ("(" : Str)
      ∧ reserveNamespaces stdLib "myapp" true false registration0
            { stdLib.Create with HomeserverDomain := "example.com" } none (stdin "(\n_app_\n")
          = emit (.ask "Enter namespace prefix" "_myapp_" "(\n" none)
              (emit (Println [("error parsing regexp: missing closing )" : Str)])
                (reserveNamespaces stdLib "myapp" true false registration0
                  { stdLib.Create with HomeserverDomain := "example.com" } none
                  (stdin "_app_\n")))
      ∧ reserveNamespaces userPatternFails "myapp" true false registration0
            { stdLib.Create with HomeserverDomain := "example.com" } none (stdin "_app_\nyes\n")
          = (Exit.aborted,
              [.ask "Enter namespace prefix" "_myapp_" "_app_\n" none,
                Println ["Failed to generate regexp for the userNamespace:", "<nil>"]]) :=
  ⟨by decide,
    ((namespace_pattern_asymmetry stdLib "myapp" true false registration0
      { stdLib.Create with HomeserverDomain := "example.com" } none "(" "_app_\n" "EOF"
      (by decide) (by decide)).1 _ (by decide)).1,
    (namespace_pattern_asymmetry userPatternFails "myapp" true false registration0
      { stdLib.Create with HomeserverDomain := "example.com" } none "_app_" "yes\n" "EOF"
      (by decide) (by decide)).2.1 { expr := "#_app_.+:example.com" }
      ("error parsing regexp" : Str) (by decide) (by decide)⟩

/-- C10. For every port answer that `strconv.Atoi` accepts as the integer `n`,
the run goes on from the port step to the prompt for the homeserver address,
with the registration URL `<protocol>://<hostname>:<n>`, where `n` is written
in decimal, with a minus sign when negative, and with the config port
`n mod 2^16`.  The port of the config equals `n` if and only if
`0 ≤ n ≤ 65535`.  In every run of `GenerateRegistration`, a port prompt whose
answer `strconv.Atoi` accepts is followed by the prompt for the homeserver
address. -/
theorem port_accepted_truncates (lib : Lib) (name : Str) (reserveRooms reserveUsers : Bool)
    (registration : Registration) (config : Config) (asProtocol asHostname L rest : Str)
    (e : Err) (n : Int) (hL : '\n' ∉ L) (hn : lib.Atoi (answer L "29313") = .ok n) :
    askPort lib name reserveRooms reserveUsers registration config asProtocol asHostname
        ⟨L ++ '\n' :: rest, e⟩
        = emit (.ask "Enter appservice host port" "29313" (L ++ ['\n']) none)
            (askHomeserver lib name reserveRooms reserveUsers
              { registration with
                URL := asProtocol ++ ("://" : Str) ++ asHostname ++ [':'] ++ itoa n }
              { config with
                Host := { config.Host with
                          Hostname := asHostname, Port := (n % 65536).toNat } }
              ⟨rest, e⟩)
      ∧ (∀ registration' config', ∃ data err tail,
          (askHomeserver lib name reserveRooms reserveUsers registration' config' ⟨rest, e⟩).2
            = Event.ask "Enter homeserver address" "http://localhost:8008" data err :: tail)
      ∧ itoa n = (toString n).toList
      ∧ (0 ≤ n → itoa n = Nat.toDigits 10 n.natAbs)
      ∧ (n < 0 → itoa n = '-' :: Nat.toDigits 10 n.natAbs)
      ∧ (((n % 65536).toNat : Int) = n % 65536)
      ∧ ((((n % 65536).toNat : Int) = n) ↔ (0 ≤ n ∧ n ≤ 65535))
      ∧ ∀ (asName botName : Str) (reader : Reader) (pre : List Event) (d data : Str)
          (post : List Event) (m : Int),
          (GenerateRegistration lib asName botName reserveRooms reserveUsers reader).2
              = pre ++ Event.ask "Enter appservice host port" d data none :: post →
            lib.Atoi (trimLine data d) = .ok m →
              ∃ data' err' tail, post
                = Event.ask "Enter homeserver address" "http://localhost:8008" data' err'
                    :: tail := by
  refine ⟨?_, fun _ _ => askHomeserver_head _ _ _ _ _ _ _, itoa_eq_toString n, ?_, ?_, ?_, ?_,
    ?_⟩
  · rw [askPort_line _ _ _ _ _ _ _ _ _ _ _ hL, hn]
  · intro h0
    cases n with
    | ofNat k => rfl
    | negSucc k => exact absurd h0 (by simp [Int.negSucc_lt_zero])
  · intro h0
    cases n with
    | ofNat k => exact absurd h0 (by simp)
    | negSucc k => rfl
  · omega
  · omega
  · intro asName botName reader pre d data post m h hm
    exact (GenerateRegistration_portStep lib asName botName reserveRooms reserveUsers reader
      pre d data post h).2.2 m hm

/-- Witness of C10: the port answer `70000` gives the URL port 70000 and the
config port 4464. -/
theorem port_accepted_truncates_witness :
    '\n' ∉ ("70000" : Str)
      ∧ stdLib.Atoi (answer "70000" "29313") = .ok 70000
      ∧ askPort stdLib "myapp" false false registration0 stdLib.Create "http" "localhost"
            (stdin "70000\n")
          = emit (.ask "Enter appservice host port" "29313" "70000\n" none)
              (askHomeserver stdLib "myapp" false false
                { registration0 with URL := "http://localhost:70000" }
                { stdLib.Create with
                  Host := { stdLib.Create.Host with Hostname := "localhost", Port := 4464 } }
                (stdin "")) :=
  ⟨by decide, by decide,
    (port_accepted_truncates stdLib "myapp" false false registration0 stdLib.Create "http"
      "localhost" "70000" "" "EOF" 70000 (by decide) (by decide)).1⟩

end Appservice
